import Mathlib

/-!
# Verification of the COVID-Simulate epidemic engine

Shallow embedding of the simulation engine of the COVID-Simulate repository.
The repository contains two near-duplicate engines:

* the *backend* engine (`backend/simulation/EpidemicSimulation.py` together
  with `backend/simulation/EpidemicSimulationBuilder.py`), whose transmission
  probability is weight-based and whose commit loop re-checks susceptibility;
* the *src* engine (`src/simulation.py` together with
  `src/EpidemicSimulationBuilder.py`), whose transmission probability is
  demographic and whose commit loop is unguarded.

Python floats are modelled as rationals, Python dicts as insertion-ordered
association lists, and the process-global `random` module as an explicit
tape of entropy values threaded through every operation.  Paths on which the
Python code raises an exception (`KeyError` from a direct dict subscript,
`ValueError` from `random.sample`) are modelled with `Option`/`Except`.
-/

namespace EpiSim

/-- Model of the process-global `random` module: a tape of raw entropy
values consumed in order.  All simulations draw from this single stream. -/
structure Rng where
  tape : List Nat
deriving DecidableEq

/-- Consume one raw entropy value (an exhausted tape yields 0 forever;
all concrete runs below use tapes long enough that this never happens). -/
def Rng.next (r : Rng) : Nat × Rng :=
  match r.tape with
  | [] => (0, ⟨[]⟩)
  | n :: t => (n, ⟨t⟩)

/-- `random.random()`: a rational in `[0, 1)` derived from one tape value. -/
def Rng.nextFloat (r : Rng) : ℚ × Rng :=
  let p := r.next
  (((p.1 % 1000000 : ℕ) : ℚ) / 1000000, p.2)

/-- `random.randint(a, b)`: uniform on the inclusive range `[a, b]`,
derived from one tape value.  (Python raises for `a > b`; the engine only
calls this with the configured recovery range, assumed ordered.) -/
def Rng.randint (r : Rng) (a b : ℕ) : ℕ × Rng :=
  let p := r.next
  (a + p.1 % (b + 1 - a), p.2)

/-- `random.sample(pop, k)`: `k` draws without replacement, each draw picking
an index into the remaining population from one tape value. -/
def Rng.sample (r : Rng) (pop : List ℕ) (k : ℕ) : List ℕ × Rng :=
  match k, pop with
  | 0, _ => ([], r)
  | _ + 1, [] => ([], r)
  | k + 1, x0 :: rest0 =>
    let pop := x0 :: rest0
    let p := r.next
    let i := p.1 % pop.length
    let q := Rng.sample p.2 (pop.eraseIdx i) k
    (pop.getD i 0 :: q.1, q.2)

/-- Python `int()` applied to a rational: truncation toward zero. -/
def pyInt (q : ℚ) : ℤ :=
  if q < 0 then -(⌊-q⌋) else ⌊q⌋

/-! ## Python dicts

A Python dict keyed by node ids, modelled as an insertion-ordered
association list: `d[k] = v` overwrites in place if `k` is present and
appends at the end otherwise, exactly like CPython iteration order. -/

/-- Dicts from node ids to natural-number values (states, days). -/
abbrev Dict := List (ℕ × ℕ)

/-- `d.get(k)` / `k in d`: first binding of `k`, if any. -/
def dictGet (d : Dict) (k : ℕ) : Option ℕ :=
  match d with
  | [] => none
  | (k', v) :: rest => if k' = k then some v else dictGet rest k

/-- `d.get(k, v0)`. -/
def dictGetD (d : Dict) (k v0 : ℕ) : ℕ :=
  (dictGet d k).getD v0

/-- `d[k] = v`: overwrite in place, else append. -/
def dictSet (d : Dict) (k v : ℕ) : Dict :=
  match d with
  | [] => [(k, v)]
  | (k', v') :: rest => if k' = k then (k, v) :: rest else (k', v') :: dictSet rest k v

/-- The keys of a dict, in iteration order. -/
def dictKeys (d : Dict) : List ℕ :=
  d.map Prod.fst

/-! ## Static data: network and configuration -/

/-- A `networkx` graph: node list, adjacency, and the static per-node and
per-edge attributes the engines read.  `weight` is `none` for an edge (or
non-edge) carrying no `weight` attribute, in which case the backend engine
defaults the social distance to 1.0. -/
structure Network where
  nodes : List ℕ
  adj : ℕ → List ℕ
  weight : ℕ → ℕ → Option ℚ
  age : ℕ → ℚ
  health : ℕ → ℚ
  mobility : ℕ → ℚ

/-- The epidemiological parameters held by a simulation instance. -/
structure Config where
  infectionProbability : ℚ
  recoveryMin : ℕ
  recoveryMax : ℕ
  initialInfectedPercent : ℚ
  mortalityRate : ℚ
  immunityPeriod : ℕ
deriving DecidableEq

/-! ## Mutable simulation state -/

/-- The mutable part of an `EpidemicSimulation` instance: the per-node state
dict (0 = susceptible, 1 = infected, 2 = recovered, 3 = deceased), the three
timer dicts, the five statistics arrays and the clock. -/
structure SimState where
  nodeStates : Dict
  infectionDay : Dict
  recoveryDay : Dict
  immunityUntil : Dict
  statsSusceptible : List ℕ
  statsInfected : List ℕ
  statsRecovered : List ℕ
  statsDeceased : List ℕ
  statsDay : List ℕ
  currentDay : ℕ
deriving DecidableEq

/-- The state of a freshly constructed simulation (`__init__`): empty dicts,
empty statistics, day 0. -/
def freshSim : SimState :=
  ⟨[], [], [], [], [], [], [], [], [], 0⟩

/-- Number of nodes currently recorded with state `s` (`_update_stats` sums
indicator comprehensions over `node_states.values()`). -/
def countState (d : Dict) (s : ℕ) : ℕ :=
  (d.filter fun p => p.2 == s).length

/-- `_update_stats`: append one snapshot of the four counts and the day. -/
def updateStats (st : SimState) : SimState :=
  { st with
    statsSusceptible := st.statsSusceptible ++ [countState st.nodeStates 0]
    statsInfected := st.statsInfected ++ [countState st.nodeStates 1]
    statsRecovered := st.statsRecovered ++ [countState st.nodeStates 2]
    statsDeceased := st.statsDeceased ++ [countState st.nodeStates 3]
    statsDay := st.statsDay ++ [st.currentDay] }

/-! ## Initialization (`initialize_infection`, identical in both engines) -/

/-- The body of the loop over `initial_infected`: mark the node infected on
day 0 and draw its recovery day.  The accumulator carries the three mutated
dicts and the random stream. -/
def infectInitial (cfg : Config) (day0 : ℕ)
    (acc : (Dict × Dict × Dict) × Rng) (node : ℕ) : (Dict × Dict × Dict) × Rng :=
  let states := dictSet acc.1.1 node 1
  let infDay := dictSet acc.1.2.1 node 0
  let q := acc.2.randint cfg.recoveryMin cfg.recoveryMax
  let recDay := dictSet acc.1.2.2 node (day0 + q.1)
  ((states, infDay, recDay), q.2)

/-- `initialize_infection`: set every network node susceptible, sample
`int(initial_infected_percent * node_count)` nodes without replacement,
infect them with `infection_day = 0` and a drawn recovery day, then append
the snapshot.  `none` models the `ValueError` that `random.sample` raises
when the requested size is negative or exceeds the population. -/
def initInfection (cfg : Config) (net : Network) (st : SimState) (r : Rng) :
    Option (SimState × Rng) :=
  let states0 := net.nodes.foldl (fun d node => dictSet d node 0) st.nodeStates
  let numInitialInfected := pyInt (cfg.initialInfectedPercent * net.nodes.length)
  if numInitialInfected < 0 ∨ (net.nodes.length : ℤ) < numInitialInfected then
    none
  else
    let s := r.sample net.nodes numInitialInfected.toNat
    let res := s.1.foldl (infectInitial cfg st.currentDay)
      ((states0, st.infectionDay, st.recoveryDay), s.2)
    some (updateStats
      { st with
        nodeStates := res.1.1
        infectionDay := res.1.2.1
        recoveryDay := res.1.2.2 }, res.2)

/-! ## Daily step, phase 1: recoveries, deaths and waning immunity

This loop is textually identical in the two engines.  It iterates over a
snapshot (`list(self.node_states.items())`) of the day-start states while
mutating the live dict; `self.recovery_day[node]` is a direct subscript, so
a missing key is a `KeyError`, modelled by `none`. -/

/-- One iteration of the resolution loop. -/
def resolveNode (cfg : Config) (day : ℕ) (recDay : Dict)
    (acc : Option ((Dict × Dict) × Rng)) (item : ℕ × ℕ) :
    Option ((Dict × Dict) × Rng) :=
  match acc with
  | none => none
  | some ((states, immun), r) =>
    if item.2 = 1 then
      match dictGet recDay item.1 with
      | none => none
      | some rd =>
        if rd ≤ day then
          let q := r.nextFloat
          if q.1 < cfg.mortalityRate then
            some ((dictSet states item.1 3, immun), q.2)
          else
            some ((dictSet states item.1 2,
                   dictSet immun item.1 (day + cfg.immunityPeriod)), q.2)
        else some ((states, immun), r)
    else if item.2 = 2 then
      match dictGet immun item.1 with
      | some iu =>
        if iu ≤ day then some ((dictSet states item.1 0, immun), r)
        else some ((states, immun), r)
      | none => some ((states, immun), r)
    else some ((states, immun), r)

/-- The whole resolution phase: fold the loop body over the snapshot. -/
def resolvePhase (cfg : Config) (day : ℕ) (recDay : Dict)
    (states : Dict) (immun : Dict) (r : Rng) :
    Option ((Dict × Dict) × Rng) :=
  states.foldl (resolveNode cfg day recDay) (some ((states, immun), r))

/-! ## Daily step, phase 2: transmission -/

/-- Per-pair transmission probability of the backend engine:
`( infection_probability / (social_distance * social_distance) ) * .5`. -/
def adjustedProbBackend (p w : ℚ) : ℚ :=
  (p / (w * w)) * 0.5

/-- The social distance the backend engine reads for a pair of nodes:
`edge_data.get('weight', 1.0)` where `edge_data` is `{}` for a missing
edge. -/
def socialDistance (net : Network) (u v : ℕ) : ℚ :=
  (net.weight u v).getD 1

/-- The probability the backend engine uses for the directed pair
(infected `u`, susceptible neighbour `v`). -/
def backendPairProb (net : Network) (p : ℚ) (u v : ℕ) : ℚ :=
  adjustedProbBackend p (socialDistance net u v)

/-- Per-pair transmission probability of the src engine:
`base * (1 - health) * (1 + max(0, (age - 50) / 100)) * ((mobility_i + mobility_s) / 2)`
capped at 0.95.  `health` and `age` are the susceptible neighbour's. -/
def adjustedProbSrc (p health age mobI mobS : ℚ) : ℚ :=
  min (p * (1 - health) * (1 + max 0 ((age - 50) / 100)) * ((mobI + mobS) / 2)) 0.95

/-- The probability the src engine uses for the directed pair
(infected `u`, susceptible neighbour `v`). -/
def srcPairProb (net : Network) (p : ℚ) (u v : ℕ) : ℚ :=
  adjustedProbSrc p (net.health v) (net.age v) (net.mobility u) (net.mobility v)

/-- One backend transmission trial: if the neighbour is susceptible
(read with `self.node_states.get(neighbor, 0)`), draw one uniform value
against the weight-based probability and record a success. -/
def transmitTrialBackend (cfg : Config) (net : Network) (states : Dict)
    (node : ℕ) (acc : List ℕ × Rng) (neighbor : ℕ) : List ℕ × Rng :=
  if dictGetD states neighbor 0 = 0 then
    let prob := backendPairProb net cfg.infectionProbability node neighbor
    let q := acc.2.nextFloat
    if q.1 < prob then (acc.1 ++ [neighbor], q.2) else (acc.1, q.2)
  else acc

/-- Backend transmission, inner loop over the neighbours of an infected
node. -/
def transmitNeighborsBackend (cfg : Config) (net : Network) (states : Dict)
    (node : ℕ) (acc : List ℕ × Rng) : List ℕ × Rng :=
  (net.adj node).foldl (transmitTrialBackend cfg net states node) acc

/-- The body of the backend transmission loop over `node_states.items()`. -/
def transmitItemBackend (cfg : Config) (net : Network) (states : Dict)
    (acc : List ℕ × Rng) (item : ℕ × ℕ) : List ℕ × Rng :=
  if item.2 = 1 then transmitNeighborsBackend cfg net states item.1 acc
  else acc

/-- Backend transmission phase: for every node currently infected, one
independent trial per susceptible neighbour; successes are collected in
`new_infections` (duplicates possible). -/
def transmitBackend (cfg : Config) (net : Network) (states : Dict) (r : Rng) :
    List ℕ × Rng :=
  states.foldl (transmitItemBackend cfg net states) ([], r)

/-- One src transmission trial: susceptibility is read with the direct
subscript `self.node_states[neighbor]`, so a missing neighbour is a
`KeyError` (`none`); the probability is the demographic one. -/
def transmitTrialSrc (cfg : Config) (net : Network) (states : Dict)
    (node : ℕ) (acc : Option (List ℕ × Rng)) (neighbor : ℕ) :
    Option (List ℕ × Rng) :=
  match acc with
  | none => none
  | some (inf, r) =>
    match dictGet states neighbor with
    | none => none
    | some s =>
      if s = 0 then
        let prob := srcPairProb net cfg.infectionProbability node neighbor
        let q := r.nextFloat
        if q.1 < prob then some (inf ++ [neighbor], q.2) else some (inf, q.2)
      else some (inf, r)

/-- Src transmission, inner loop over the neighbours of an infected node. -/
def transmitNeighborsSrc (cfg : Config) (net : Network) (states : Dict)
    (node : ℕ) (acc : Option (List ℕ × Rng)) : Option (List ℕ × Rng) :=
  (net.adj node).foldl (transmitTrialSrc cfg net states node) acc

/-- The body of the src transmission loop over `node_states.items()`. -/
def transmitItemSrc (cfg : Config) (net : Network) (states : Dict)
    (acc : Option (List ℕ × Rng)) (item : ℕ × ℕ) : Option (List ℕ × Rng) :=
  match acc with
  | none => none
  | some a =>
    if item.2 = 1 then transmitNeighborsSrc cfg net states item.1 (some a)
    else some a

/-- Src transmission phase. -/
def transmitSrc (cfg : Config) (net : Network) (states : Dict) (r : Rng) :
    Option (List ℕ × Rng) :=
  states.foldl (transmitItemSrc cfg net states) (some ([], r))

/-! ## Daily step, phase 3: commit of new infections -/

/-- One iteration of the backend commit loop: the node is promoted only if
it is *still* susceptible (`self.node_states.get(node, 0) == 0`); the
recovery draw happens only on promotion. -/
def commitNodeBackend (cfg : Config) (day : ℕ)
    (acc : (Dict × Dict × Dict) × Rng) (node : ℕ) : (Dict × Dict × Dict) × Rng :=
  if dictGetD acc.1.1 node 0 = 0 then
    let states := dictSet acc.1.1 node 1
    let infDay := dictSet acc.1.2.1 node day
    let q := acc.2.randint cfg.recoveryMin cfg.recoveryMax
    ((states, infDay, dictSet acc.1.2.2 node (day + q.1)), q.2)
  else acc

/-- Backend commit phase. -/
def commitBackend (cfg : Config) (day : ℕ) (newInf : List ℕ)
    (states infDay recDay : Dict) (r : Rng) : (Dict × Dict × Dict) × Rng :=
  newInf.foldl (commitNodeBackend cfg day) ((states, infDay, recDay), r)

/-- One iteration of the src commit loop: every recorded node is processed
unconditionally, so a duplicate entry re-draws the node's recovery day. -/
def commitNodeSrc (cfg : Config) (day : ℕ)
    (acc : (Dict × Dict × Dict) × Rng) (node : ℕ) : (Dict × Dict × Dict) × Rng :=
  let states := dictSet acc.1.1 node 1
  let infDay := dictSet acc.1.2.1 node day
  let q := acc.2.randint cfg.recoveryMin cfg.recoveryMax
  ((states, infDay, dictSet acc.1.2.2 node (day + q.1)), q.2)

/-- Src commit phase. -/
def commitSrc (cfg : Config) (day : ℕ) (newInf : List ℕ)
    (states infDay recDay : Dict) (r : Rng) : (Dict × Dict × Dict) × Rng :=
  newInf.foldl (commitNodeSrc cfg day) ((states, infDay, recDay), r)

/-! ## The daily step (`simulate_day`) of each engine -/

/-- `simulate_day` of the backend engine.  Returns the new state, the random
stream, and `len(new_infections) > 0`. -/
def simulateDayBackend (cfg : Config) (net : Network) (st : SimState)
    (r : Rng) : Option (SimState × Rng × Bool) :=
  let day := st.currentDay + 1
  match resolvePhase cfg day st.recoveryDay st.nodeStates st.immunityUntil r with
  | none => none
  | some ((states1, immun1), r1) =>
    let t := transmitBackend cfg net states1 r1
    let c := commitBackend cfg day t.1 states1 st.infectionDay st.recoveryDay t.2
    some (updateStats
      { st with
        nodeStates := c.1.1
        infectionDay := c.1.2.1
        recoveryDay := c.1.2.2
        immunityUntil := immun1
        currentDay := day }, c.2, !t.1.isEmpty)

/-- `simulate_day` of the src engine. -/
def simulateDaySrc (cfg : Config) (net : Network) (st : SimState)
    (r : Rng) : Option (SimState × Rng × Bool) :=
  let day := st.currentDay + 1
  match resolvePhase cfg day st.recoveryDay st.nodeStates st.immunityUntil r with
  | none => none
  | some ((states1, immun1), r1) =>
    match transmitSrc cfg net states1 r1 with
    | none => none
    | some (newInf, r2) =>
      let c := commitSrc cfg day newInf states1 st.infectionDay st.recoveryDay r2
      some (updateStats
        { st with
          nodeStates := c.1.1
          infectionDay := c.1.2.1
          recoveryDay := c.1.2.2
          immunityUntil := immun1
          currentDay := day }, c.2, !newInf.isEmpty)

/-- `m` consecutive backend daily steps. -/
def runDaysBackend (cfg : Config) (net : Network) :
    ℕ → SimState × Rng → Option (SimState × Rng)
  | 0, sr => some sr
  | m + 1, sr =>
    match simulateDayBackend cfg net sr.1 sr.2 with
    | none => none
    | some (st, r, _) => runDaysBackend cfg net m (st, r)

/-- `m` consecutive src daily steps. -/
def runDaysSrc (cfg : Config) (net : Network) :
    ℕ → SimState × Rng → Option (SimState × Rng)
  | 0, sr => some sr
  | m + 1, sr =>
    match simulateDaySrc cfg net sr.1 sr.2 with
    | none => none
    | some (st, r, _) => runDaysSrc cfg net m (st, r)

/-! ## Network generation and construction (`generate_network`, builders)

The `networkx` graph constructors and the `np.random` attribute draws are
library calls; they enter the embedding as oracles: `topo` yields the node
list and adjacency produced by the library for a model name and parameters,
and `attrs` yields the `(age, health, mobility)` triple drawn for a node.
(`np.random` is a global stream separate from `random`.) -/

/-- The exceptions the repository's construction paths can raise. -/
inductive PyError where
  | valueError
  | typeError
deriving DecidableEq

/-- `generate_network` (textually identical engine method in both engines):
dispatch on the model name, raise `ValueError` for an unknown model, then
assign `age`, `health` and `mobility` to every node.  No edge attribute is
assigned, so every generated edge is without a `weight`. -/
def generateNetwork (model : String) (n m : ℕ)
    (topo : String → ℕ → ℕ → List ℕ × (ℕ → List ℕ))
    (attrs : ℕ → ℚ × ℚ × ℚ) : Except PyError Network :=
  if model = "barabasi_albert" ∨ model = "watts_strogatz" ∨ model = "erdos_renyi" then
    let t := topo model n m
    .ok
      { nodes := t.1
        adj := t.2
        weight := fun _ _ => none
        age := fun v => (attrs v).1
        health := fun v => (attrs v).2.1
        mobility := fun v => (attrs v).2.2 }
  else .error .valueError

/-- A constructed `EpidemicSimulation` instance: the network, the parameters
and the mutable state. -/
structure EpidemicSim where
  network : Network
  cfg : Config
  state : SimState

/-- `src/EpidemicSimulationBuilder.py`: the builder's fields with their
source defaults. -/
structure SrcBuilder where
  network : Option Network := none
  infectionProbability : ℚ := 0.3
  recoveryDays : ℕ × ℕ := (7, 14)
  initialInfectedPercent : ℚ := 0.01
  mortalityRate : ℚ := 0.02
  immunityPeriod : ℕ := 60
  networkModel : String := "barabasi_albert"
  networkSize : ℕ := 1000
  networkParam : ℕ := 5

/-- The `Config` a builder passes to the constructor. -/
def SrcBuilder.toConfig (b : SrcBuilder) : Config :=
  ⟨b.infectionProbability, b.recoveryDays.1, b.recoveryDays.2,
   b.initialInfectedPercent, b.mortalityRate, b.immunityPeriod⟩

/-- The src engine's `__init__`: store the parameters with empty state; if
no network was passed, call `generate_network()` with its defaults. -/
def srcSimNew (network : Option Network) (cfg : Config)
    (topo : String → ℕ → ℕ → List ℕ × (ℕ → List ℕ))
    (attrs : ℕ → ℚ × ℚ × ℚ) : Except PyError EpidemicSim :=
  match network with
  | some net => .ok ⟨net, cfg, freshSim⟩
  | none =>
    match generateNetwork "barabasi_albert" 1000 5 topo attrs with
    | .ok net => .ok ⟨net, cfg, freshSim⟩
    | .error e => .error e

/-- `build()` of the src builder: construct the simulation, then, when no
network was provided, call `sim.generate_network` with the configured model
and parameters (replacing the constructor's default network). -/
def srcBuild (b : SrcBuilder)
    (topo : String → ℕ → ℕ → List ℕ × (ℕ → List ℕ))
    (attrs : ℕ → ℚ × ℚ × ℚ) : Except PyError EpidemicSim :=
  match srcSimNew b.network b.toConfig topo attrs with
  | .error e => .error e
  | .ok sim =>
    match b.network with
    | some _ => .ok sim
    | none =>
      match generateNetwork b.networkModel b.networkSize b.networkParam topo attrs with
      | .ok net => .ok { sim with network := net }
      | .error e => .error e

/-- `backend/simulation/EpidemicSimulationBuilder.py`: same fields and
defaults (plus an `interaction_distance` attribute that only exists after
its setter ran; `build()` reads it with `getattr(self, ..., 1)`). -/
structure BackendBuilder where
  network : Option Network := none
  infectionProbability : ℚ := 0.3
  recoveryDays : ℕ × ℕ := (7, 14)
  initialInfectedPercent : ℚ := 0.01
  mortalityRate : ℚ := 0.02
  immunityPeriod : ℕ := 60
  networkModel : String := "barabasi_albert"
  networkSize : ℕ := 1000
  networkParam : ℕ := 5

/-- `build()` of the backend builder.  When no network was provided,
`_create_network()` runs first: it raises `ValueError` for an unknown model
and otherwise builds a weighted network.  `build()` then always calls
`EpidemicSimulation(..., interaction_distance=...)`, but the backend
`EpidemicSimulation.__init__` has no such parameter, so the call raises
`TypeError` (an unexpected keyword argument) on every path that reaches it;
the value `_create_network` produced is discarded with the exception. -/
def backendBuild (b : BackendBuilder) : Except PyError EpidemicSim :=
  match b.network with
  | none =>
    if b.networkModel = "barabasi_albert" ∨ b.networkModel = "watts_strogatz"
        ∨ b.networkModel = "erdos_renyi" then
      .error .typeError
    else .error .valueError
  | some _ => .error .typeError

/-! ## Run controller (`run_simulation`, src engine) -/

/-- `max(d.values())`: `none` models the `ValueError` on an empty dict. -/
def dictValuesMax (d : Dict) : Option ℕ :=
  match d.map Prod.snd with
  | [] => none
  | v :: vs => some (vs.foldl max v)

/-- The day loop of the src engine's `run_simulation`: run `simulate_day`
up to `fuel` more times, stopping early when the infected count reaches 0,
or when a day produced no new infection, the 0-based loop index exceeds
`max(recovery_days_range)`, and the last infection lies further back than
`max(recovery_days_range)`. -/
def runLoopSrc (cfg : Config) (net : Network) :
    ℕ → ℕ → SimState → Rng → Option (SimState × Rng)
  | _, 0, st, r => some (st, r)
  | day, fuel + 1, st, r =>
    match simulateDaySrc cfg net st r with
    | none => none
    | some (st', r', active) =>
      match st'.statsInfected.getLast? with
      | none => none
      | some lastInf =>
        if lastInf = 0 then some (st', r')
        else
          let maxR := max cfg.recoveryMin cfg.recoveryMax
          if active = false ∧ maxR < day then
            match dictValuesMax st'.infectionDay with
            | none => none
            | some last =>
              if maxR < st'.currentDay - last then some (st', r')
              else runLoopSrc cfg net (day + 1) fuel st' r'
          else runLoopSrc cfg net (day + 1) fuel st' r'

/-- `run_simulation(days)` of the src engine: initialize the infection,
then run the day loop. -/
def runSimulationSrc (cfg : Config) (net : Network) (days : ℕ)
    (st : SimState) (r : Rng) : Option (SimState × Rng) :=
  match initInfection cfg net st r with
  | none => none
  | some (st0, r0) => runLoopSrc cfg net 0 days st0 r0

/-- The five statistics arrays of a state, in source order. -/
def statsOf (st : SimState) : List ℕ × List ℕ × List ℕ × List ℕ × List ℕ :=
  (st.statsSusceptible, st.statsInfected, st.statsRecovered,
   st.statsDeceased, st.statsDay)

/-- The full pipeline of claim C9: `build`, then `run_simulation(days)`
(which performs `initialize_infection` itself), on the src engine, drawing
every random value from the given global tape.  The result is the
StatisticsSeries. -/
def pipelineSrc (b : SrcBuilder)
    (topo : String → ℕ → ℕ → List ℕ × (ℕ → List ℕ))
    (attrs : ℕ → ℚ × ℚ × ℚ) (days : ℕ) (tape : List ℕ) :
    Option (List ℕ × List ℕ × List ℕ × List ℕ × List ℕ) :=
  match srcBuild b topo attrs with
  | .error _ => none
  | .ok sim =>
    match runSimulationSrc sim.cfg sim.network days sim.state ⟨tape⟩ with
    | none => none
    | some (st, _) => some (statsOf st)

/-! ## Dict lemmas -/

theorem dictGet_dictSet_self (d : Dict) (k v : ℕ) :
    dictGet (dictSet d k v) k = some v := by
  induction d with
  | nil => simp [dictSet, dictGet]
  | cons p rest ih =>
    by_cases h : p.1 = k
    · simp [dictSet, dictGet, h]
    · simp [dictSet, dictGet, h, ih]

theorem dictGet_dictSet_ne (d : Dict) (k v k' : ℕ) (h : k' ≠ k) :
    dictGet (dictSet d k v) k' = dictGet d k' := by
  have h' : ¬(k = k') := fun hh => h hh.symm
  induction d with
  | nil => simp [dictSet, dictGet, h']
  | cons p rest ih =>
    obtain ⟨a, b⟩ := p
    by_cases hp : a = k
    · subst hp
      simp [dictSet, dictGet, h']
    · simp [dictSet, dictGet, hp, ih]

theorem mem_dictKeys_iff_isSome (d : Dict) (k : ℕ) :
    k ∈ dictKeys d ↔ (dictGet d k).isSome := by
  induction d with
  | nil => simp [dictKeys, dictGet]
  | cons p rest ih =>
    obtain ⟨a, b⟩ := p
    by_cases h : a = k
    · simp [dictKeys, dictGet, h]
    · have h' : ¬(k = a) := fun hh => h hh.symm
      simpa [dictKeys, dictGet, h, h'] using ih

theorem dictKeys_dictSet_of_mem (d : Dict) (k v : ℕ) (h : k ∈ dictKeys d) :
    dictKeys (dictSet d k v) = dictKeys d := by
  induction d with
  | nil => simp [dictKeys] at h
  | cons p rest ih =>
    obtain ⟨a, b⟩ := p
    by_cases hp : a = k
    · simp [dictSet, dictKeys, hp]
    · have h' : k ∈ dictKeys rest := by
        have : k = a ∨ k ∈ dictKeys rest := by simpa [dictKeys] using h
        rcases this with hh | hh
        · exact absurd hh.symm hp
        · exact hh
      simp only [dictSet, if_neg hp, dictKeys, List.map_cons]
      have := ih h'
      simp only [dictKeys] at this
      rw [this]

theorem dictKeys_dictSet_of_not_mem (d : Dict) (k v : ℕ) (h : k ∉ dictKeys d) :
    dictKeys (dictSet d k v) = dictKeys d ++ [k] := by
  induction d with
  | nil => simp [dictSet, dictKeys]
  | cons p rest ih =>
    obtain ⟨a, b⟩ := p
    have hp : ¬(a = k) := by
      intro hh
      exact h (by simp [dictKeys, hh])
    have h' : k ∉ dictKeys rest := by
      intro hh
      exact h (by simp [dictKeys]; exact Or.inr (by simpa [dictKeys] using hh))
    simp only [dictSet, if_neg hp, dictKeys, List.map_cons, List.cons_append]
    have := ih h'
    simp only [dictKeys] at this
    rw [this]

theorem dictKeys_dictSet_nodup (d : Dict) (k v : ℕ)
    (h : (dictKeys d).Nodup) : (dictKeys (dictSet d k v)).Nodup := by
  by_cases hk : k ∈ dictKeys d
  · rw [dictKeys_dictSet_of_mem d k v hk]; exact h
  · rw [dictKeys_dictSet_of_not_mem d k v hk]
    simpa [List.nodup_append] using ⟨h, hk⟩

theorem dictSet_values_le (d : Dict) (k v bound : ℕ)
    (hd : ∀ p ∈ d, p.2 ≤ bound) (hv : v ≤ bound) :
    ∀ p ∈ dictSet d k v, p.2 ≤ bound := by
  induction d with
  | nil =>
    intro p hp
    simp [dictSet] at hp
    simp [hp, hv]
  | cons q rest ih =>
    obtain ⟨a, b⟩ := q
    intro p hp
    by_cases hq : a = k
    · simp only [dictSet, if_pos hq, List.mem_cons] at hp
      rcases hp with hp | hp
      · simp [hp, hv]
      · exact hd p (by simp [hp])
    · simp only [dictSet, if_neg hq, List.mem_cons] at hp
      rcases hp with hp | hp
      · exact hd p (by simp [hp])
      · exact ih (fun q' hq' => hd q' (by simp [hq'])) p hp

theorem length_eq_dictKeys_length (d : Dict) : d.length = (dictKeys d).length := by
  simp [dictKeys]

/-! ## Counting lemmas -/

theorem countState_nil (s : ℕ) : countState [] s = 0 := rfl

theorem countState_cons (p : ℕ × ℕ) (d : Dict) (s : ℕ) :
    countState (p :: d) s = (if p.2 = s then 1 else 0) + countState d s := by
  by_cases h : p.2 = s
  · simp [countState, List.filter_cons, h]
    omega
  · simp [countState, List.filter_cons, h]

/-- Each entry whose value lies in `{0, 1, 2, 3}` is counted exactly once,
so the four per-state counts sum to the dict size. -/
theorem countState_sum (d : Dict) (h : ∀ p ∈ d, p.2 ≤ 3) :
    countState d 0 + countState d 1 + countState d 2 + countState d 3 = d.length := by
  induction d with
  | nil => simp [countState_nil]
  | cons p rest ih =>
    obtain ⟨a, b⟩ := p
    have hp : b ≤ 3 := by simpa using h (a, b) (by simp)
    have hrest := ih fun q hq => h q (by simp [hq])
    simp only [countState_cons, List.length_cons]
    interval_cases b <;> simp <;> omega

/-! ## Random-source lemmas -/

/-- `random.randint(a, b)` yields a value in the inclusive range `[a, b]`. -/
theorem randint_bounds (r : Rng) (a b : ℕ) (h : a ≤ b) :
    a ≤ (r.randint a b).1 ∧ (r.randint a b).1 ≤ b := by
  have hm : (r.next).1 % (b + 1 - a) < b + 1 - a := Nat.mod_lt _ (by omega)
  simp only [Rng.randint]
  omega

/-- Every element of a `random.sample` result comes from the population. -/
theorem sample_subset (k : ℕ) (r : Rng) (pop : List ℕ) :
    ∀ v ∈ (r.sample pop k).1, v ∈ pop := by
  induction k generalizing r pop with
  | zero => intro v hv; simp [Rng.sample] at hv
  | succ k ih =>
    intro v hv
    match pop with
    | [] => simp [Rng.sample] at hv
    | x0 :: rest0 =>
      have hlen : (r.next).1 % (x0 :: rest0).length < (x0 :: rest0).length :=
        Nat.mod_lt _ (by simp)
      simp only [Rng.sample, List.mem_cons] at hv
      rcases hv with hv | hv
      · rw [hv, List.getD_eq_getElem _ _ hlen]
        exact List.getElem_mem hlen
      · exact (List.eraseIdx_sublist (x0 :: rest0) _).subset (ih _ _ v hv)

/-- A `random.sample` result over a duplicate-free population is
duplicate-free: the sampling is without replacement. -/
theorem sample_nodup (k : ℕ) (r : Rng) (pop : List ℕ) (h : pop.Nodup) :
    (r.sample pop k).1.Nodup := by
  induction k generalizing r pop with
  | zero => simp [Rng.sample]
  | succ k ih =>
    match pop with
    | [] => simp [Rng.sample]
    | x0 :: rest0 =>
      have hlen : (r.next).1 % (x0 :: rest0).length < (x0 :: rest0).length :=
        Nat.mod_lt _ (by simp)
      simp only [Rng.sample, List.nodup_cons]
      constructor
      · intro hmem
        have hsub := sample_subset k (r.next).2
          ((x0 :: rest0).eraseIdx ((r.next).1 % (x0 :: rest0).length))
        have hx := hsub _ hmem
        rw [List.getD_eq_getElem _ _ hlen] at hx
        rw [List.mem_eraseIdx_iff_getElem] at hx
        obtain ⟨j, hj, hne, hev⟩ := hx
        exact hne ((List.Nodup.getElem_inj_iff h).mp hev)
      · exact ih _ _ (List.Nodup.eraseIdx _ h)

/-- A `random.sample` of size `k ≤ len(pop)` has exactly `k` elements. -/
theorem sample_length (k : ℕ) (r : Rng) (pop : List ℕ) (h : k ≤ pop.length) :
    (r.sample pop k).1.length = k := by
  induction k generalizing r pop with
  | zero => simp [Rng.sample]
  | succ k ih =>
    match pop with
    | [] => simp at h
    | x0 :: rest0 =>
      have hlen : (r.next).1 % (rest0.length + 1) < rest0.length + 1 :=
        Nat.mod_lt _ (by omega)
      have herase : ((x0 :: rest0).eraseIdx ((r.next).1 % (rest0.length + 1))).length
          = rest0.length := by
        rw [List.length_eraseIdx]
        simp [hlen]
      have hk : k ≤ ((x0 :: rest0).eraseIdx ((r.next).1 % (rest0.length + 1))).length := by
        rw [herase]
        simp only [List.length_cons] at h
        omega
      simp only [Rng.sample, List.length_cons]
      rw [ih _ _ hk]

/-! ## Initialization lemmas -/

theorem setAll_get_not_mem (nodes : List ℕ) (d0 : Dict) (v : ℕ) (h : v ∉ nodes) :
    dictGet (nodes.foldl (fun d node => dictSet d node 0) d0) v = dictGet d0 v := by
  induction nodes generalizing d0 with
  | nil => rfl
  | cons x xs ih =>
    have hx : v ≠ x := by
      intro hh
      exact h (by simp [hh])
    have hxs : v ∉ xs := fun hh => h (by simp [hh])
    simp only [List.foldl_cons]
    rw [ih _ hxs, dictGet_dictSet_ne _ _ _ _ hx]

theorem setAll_get_mem (nodes : List ℕ) (d0 : Dict) (v : ℕ) (h : v ∈ nodes) :
    dictGet (nodes.foldl (fun d node => dictSet d node 0) d0) v = some 0 := by
  induction nodes generalizing d0 with
  | nil => simp at h
  | cons x xs ih =>
    by_cases hxs : v ∈ xs
    · simp only [List.foldl_cons]
      exact ih _ hxs
    · have hx : v = x := by
        rcases List.mem_cons.mp h with hh | hh
        · exact hh
        · exact absurd hh hxs
      subst hx
      simp only [List.foldl_cons]
      rw [setAll_get_not_mem _ _ _ hxs, dictGet_dictSet_self]

theorem setAll_keys (nodes : List ℕ) (d0 : Dict) (hnodup : nodes.Nodup)
    (hdisj : ∀ v ∈ nodes, v ∉ dictKeys d0) :
    dictKeys (nodes.foldl (fun d node => dictSet d node 0) d0) = dictKeys d0 ++ nodes := by
  induction nodes generalizing d0 with
  | nil => simp
  | cons x xs ih =>
    have hx : x ∉ dictKeys d0 := hdisj x (by simp)
    have hnodup' := (List.nodup_cons.mp hnodup).2
    have hxnotxs := (List.nodup_cons.mp hnodup).1
    have hdisj' : ∀ v ∈ xs, v ∉ dictKeys (dictSet d0 x 0) := by
      intro v hv
      rw [dictKeys_dictSet_of_not_mem _ _ _ hx]
      simp only [List.mem_append, List.mem_singleton]
      rintro (hk | hk)
      · exact hdisj v (by simp [hv]) hk
      · subst hk
        exact hxnotxs hv
    simp only [List.foldl_cons]
    rw [ih (dictSet d0 x 0) hnodup' hdisj', dictKeys_dictSet_of_not_mem _ _ _ hx]
    simp

theorem setAll_values_le (nodes : List ℕ) (d0 : Dict)
    (h : ∀ p ∈ d0, p.2 ≤ 3) :
    ∀ p ∈ nodes.foldl (fun d node => dictSet d node 0) d0, p.2 ≤ 3 := by
  induction nodes generalizing d0 with
  | nil => exact h
  | cons x xs ih =>
    simp only [List.foldl_cons]
    exact ih _ (dictSet_values_le d0 x 0 3 h (by omega))

/-- Nodes not in the `initial_infected` list keep their dict entries through
the infection loop. -/
theorem infect_get_not_mem (cfg : Config) (day0 : ℕ) (c : List ℕ) (v : ℕ)
    (h : v ∉ c) (acc : (Dict × Dict × Dict) × Rng) :
    dictGet (c.foldl (infectInitial cfg day0) acc).1.1 v = dictGet acc.1.1 v ∧
    dictGet (c.foldl (infectInitial cfg day0) acc).1.2.1 v = dictGet acc.1.2.1 v ∧
    dictGet (c.foldl (infectInitial cfg day0) acc).1.2.2 v = dictGet acc.1.2.2 v := by
  induction c generalizing acc with
  | nil => exact ⟨rfl, rfl, rfl⟩
  | cons x xs ih =>
    have hx : v ≠ x := by
      intro hh
      exact h (by simp [hh])
    have hxs : v ∉ xs := fun hh => h (by simp [hh])
    simp only [List.foldl_cons]
    obtain ⟨h1, h2, h3⟩ := ih hxs (infectInitial cfg day0 acc x)
    refine ⟨?_, ?_, ?_⟩
    · rw [h1]
      exact dictGet_dictSet_ne _ _ _ _ hx
    · rw [h2]
      exact dictGet_dictSet_ne _ _ _ _ hx
    · rw [h3]
      exact dictGet_dictSet_ne _ _ _ _ hx

/-- Every node in the `initial_infected` list ends the loop infected on day
0 with a recovery day drawn from the configured range (offset by the
current day). -/
theorem infect_get_mem (cfg : Config) (day0 : ℕ)
    (hminmax : cfg.recoveryMin ≤ cfg.recoveryMax) (c : List ℕ) (v : ℕ)
    (h : v ∈ c) (acc : (Dict × Dict × Dict) × Rng) :
    dictGet (c.foldl (infectInitial cfg day0) acc).1.1 v = some 1 ∧
    dictGet (c.foldl (infectInitial cfg day0) acc).1.2.1 v = some 0 ∧
    ∃ p, cfg.recoveryMin ≤ p ∧ p ≤ cfg.recoveryMax ∧
      dictGet (c.foldl (infectInitial cfg day0) acc).1.2.2 v = some (day0 + p) := by
  induction c generalizing acc with
  | nil => simp at h
  | cons x xs ih =>
    by_cases hxs : v ∈ xs
    · simp only [List.foldl_cons]
      exact ih hxs _
    · have hx : v = x := by
        rcases List.mem_cons.mp h with hh | hh
        · exact hh
        · exact absurd hh hxs
      subst hx
      simp only [List.foldl_cons]
      obtain ⟨h1, h2, h3⟩ := infect_get_not_mem cfg day0 xs v hxs
        (infectInitial cfg day0 acc v)
      refine ⟨?_, ?_, ?_⟩
      · rw [h1]
        exact dictGet_dictSet_self _ _ _
      · rw [h2]
        exact dictGet_dictSet_self _ _ _
      · obtain ⟨hlo, hhi⟩ := randint_bounds acc.2 cfg.recoveryMin cfg.recoveryMax hminmax
        exact ⟨(acc.2.randint cfg.recoveryMin cfg.recoveryMax).1, hlo, hhi, by
          rw [h3]
          exact dictGet_dictSet_self _ _ _⟩

/-- The infection loop touches only keys that are already present, so the
key list of the state dict is unchanged and state values stay within the
four-value range. -/
theorem infect_keys_values (cfg : Config) (day0 : ℕ) (c : List ℕ)
    (acc : (Dict × Dict × Dict) × Rng)
    (hmem : ∀ v ∈ c, v ∈ dictKeys acc.1.1)
    (hval : ∀ p ∈ acc.1.1, p.2 ≤ 3) :
    dictKeys (c.foldl (infectInitial cfg day0) acc).1.1 = dictKeys acc.1.1 ∧
    ∀ p ∈ (c.foldl (infectInitial cfg day0) acc).1.1, p.2 ≤ 3 := by
  induction c generalizing acc with
  | nil => exact ⟨rfl, hval⟩
  | cons x xs ih =>
    have hx : x ∈ dictKeys acc.1.1 := hmem x (by simp)
    have hkeys : dictKeys (infectInitial cfg day0 acc x).1.1 = dictKeys acc.1.1 :=
      dictKeys_dictSet_of_mem _ _ _ hx
    have hval' : ∀ p ∈ (infectInitial cfg day0 acc x).1.1, p.2 ≤ 3 :=
      dictSet_values_le _ _ _ 3 hval (by omega)
    have hmem' : ∀ v ∈ xs, v ∈ dictKeys (infectInitial cfg day0 acc x).1.1 := by
      intro v hv
      rw [hkeys]
      exact hmem v (by simp [hv])
    simp only [List.foldl_cons]
    obtain ⟨hk, hv⟩ := ih _ hmem' hval'
    exact ⟨by rw [hk, hkeys], hv⟩

/-! ## Simulation invariants -/

/-- The node-state dict covers exactly the network's nodes and every value
is one of the four states. -/
def StatesOK (net : Network) (d : Dict) : Prop :=
  dictKeys d = net.nodes ∧ ∀ p ∈ d, p.2 ≤ 3

/-- The five statistics arrays are aligned and every recorded snapshot's
four counts sum to the node count `n`. -/
def StatsOK (n : ℕ) (st : SimState) : Prop :=
  st.statsSusceptible.length = st.statsDay.length ∧
  st.statsInfected.length = st.statsDay.length ∧
  st.statsRecovered.length = st.statsDay.length ∧
  st.statsDeceased.length = st.statsDay.length ∧
  ∀ i < st.statsDay.length,
    st.statsSusceptible.getD i 0 + st.statsInfected.getD i 0 +
      st.statsRecovered.getD i 0 + st.statsDeceased.getD i 0 = n

/-- The adjacency oracle only mentions nodes of the network (true of any
`networkx` graph, whose neighbour lists are node lists). -/
def AdjClosed (net : Network) : Prop :=
  ∀ u : ℕ, ∀ v ∈ net.adj u, v ∈ net.nodes

/-- Appending a snapshot preserves `StatsOK` whenever the node-state dict
is well formed: the four fresh counts sum to the node count. -/
theorem statsOK_updateStats (net : Network) (st : SimState)
    (hS : StatesOK net st.nodeStates) (h : StatsOK net.nodes.length st) :
    StatsOK net.nodes.length (updateStats st) := by
  obtain ⟨hKeys, hVals⟩ := hS
  obtain ⟨h1, h2, h3, h4, hc⟩ := h
  have hrow : countState st.nodeStates 0 + countState st.nodeStates 1 +
      countState st.nodeStates 2 + countState st.nodeStates 3 = net.nodes.length := by
    rw [countState_sum _ hVals, length_eq_dictKeys_length, hKeys]
  refine ⟨by simp [updateStats, h1], by simp [updateStats, h2],
    by simp [updateStats, h3], by simp [updateStats, h4], ?_⟩
  intro i hi
  simp only [updateStats, List.length_append, List.length_singleton] at hi
  by_cases hlt : i < st.statsDay.length
  · simp only [updateStats]
    rw [List.getD_append _ _ _ _ (by omega), List.getD_append _ _ _ _ (by omega),
      List.getD_append _ _ _ _ (by omega), List.getD_append _ _ _ _ (by omega)]
    exact hc i hlt
  · have hi' : i = st.statsDay.length := by omega
    subst hi'
    simp only [updateStats]
    rw [List.getD_append_right _ _ _ _ (by omega),
      List.getD_append_right _ _ _ _ (by omega),
      List.getD_append_right _ _ _ _ (by omega),
      List.getD_append_right _ _ _ _ (by omega)]
    rw [h1, h2, h3, h4]
    simpa using hrow

/-! ## Resolution-phase lemmas -/

/-- A `KeyError` propagates through the rest of the resolution loop. -/
theorem resolveFold_none (cfg : Config) (day : ℕ) (recDay : Dict)
    (items : List (ℕ × ℕ)) :
    items.foldl (resolveNode cfg day recDay) none = none := by
  induction items with
  | nil => rfl
  | cons it its ih =>
    simpa only [List.foldl_cons, resolveNode] using ih

/-- A successful resolution iteration either leaves the state dict alone or
overwrites the processed node's entry with one of the four states. -/
theorem resolveNode_some_states (cfg : Config) (day : ℕ) (recDay : Dict)
    (s i : Dict) (r : Rng) (it : ℕ × ℕ) (res : (Dict × Dict) × Rng)
    (h : resolveNode cfg day recDay (some ((s, i), r)) it = some res) :
    res.1.1 = s ∨ ∃ c, c ≤ 3 ∧ res.1.1 = dictSet s it.1 c := by
  simp only [resolveNode] at h
  by_cases h1 : it.2 = 1
  · rw [if_pos h1] at h
    cases hrd : dictGet recDay it.1 with
    | none => rw [hrd] at h; cases h
    | some rd =>
      rw [hrd] at h
      dsimp only at h
      by_cases h2 : rd ≤ day
      · rw [if_pos h2] at h
        by_cases h3 : (r.nextFloat).1 < cfg.mortalityRate
        · rw [if_pos h3] at h
          obtain rfl := Option.some.inj h
          exact Or.inr ⟨3, by omega, rfl⟩
        · rw [if_neg h3] at h
          obtain rfl := Option.some.inj h
          exact Or.inr ⟨2, by omega, rfl⟩
      · rw [if_neg h2] at h
        obtain rfl := Option.some.inj h
        exact Or.inl rfl
  · rw [if_neg h1] at h
    by_cases h2 : it.2 = 2
    · rw [if_pos h2] at h
      cases hiu : dictGet i it.1 with
      | none =>
        rw [hiu] at h
        dsimp only at h
        obtain rfl := Option.some.inj h
        exact Or.inl rfl
      | some iu =>
        rw [hiu] at h
        dsimp only at h
        by_cases h3 : iu ≤ day
        · rw [if_pos h3] at h
          obtain rfl := Option.some.inj h
          exact Or.inr ⟨0, by omega, rfl⟩
        · rw [if_neg h3] at h
          obtain rfl := Option.some.inj h
          exact Or.inl rfl
    · rw [if_neg h2] at h
      obtain rfl := Option.some.inj h
      exact Or.inl rfl

/-- The resolution loop, run over any snapshot whose keys lie in `K`,
preserves both the key list `K` and the four-value range of the state
dict. -/
theorem resolveFold_statesOK (cfg : Config) (day : ℕ) (recDay : Dict)
    (K : List ℕ) (items : List (ℕ × ℕ)) :
    ∀ (s i : Dict) (r : Rng) (res : (Dict × Dict) × Rng),
    items.foldl (resolveNode cfg day recDay) (some ((s, i), r)) = some res →
    (∀ it ∈ items, it.1 ∈ K) → dictKeys s = K → (∀ p ∈ s, p.2 ≤ 3) →
    dictKeys res.1.1 = K ∧ ∀ p ∈ res.1.1, p.2 ≤ 3 := by
  induction items with
  | nil =>
    intro s i r res h _ hk hv
    obtain rfl := Option.some.inj h
    exact ⟨hk, hv⟩
  | cons it its ih =>
    intro s i r res h hmem hk hv
    simp only [List.foldl_cons] at h
    cases hstep : resolveNode cfg day recDay (some ((s, i), r)) it with
    | none =>
      rw [hstep, resolveFold_none] at h
      cases h
    | some acc' =>
      rw [hstep] at h
      obtain ⟨⟨s', i'⟩, r'⟩ := acc'
      have hmem' : ∀ u ∈ its, u.1 ∈ K := fun u hu => hmem u (by simp [hu])
      rcases resolveNode_some_states cfg day recDay s i r it _ hstep with hs | ⟨c, hc, hs⟩
      · simp only at hs
        subst hs
        exact ih s' i' r' res h hmem' hk hv
      · simp only at hs
        subst hs
        have hitK : it.1 ∈ dictKeys s := by
          rw [hk]
          exact hmem it (by simp)
        exact ih _ i' r' res h hmem'
          (by rw [dictKeys_dictSet_of_mem _ _ _ hitK, hk])
          (dictSet_values_le _ _ _ _ hv hc)

/-! ## Transmission-phase lemmas -/

/-- Backend inner loop: every candidate either was already recorded or is a
susceptible member of the scanned neighbour list. -/
theorem transmitTrialFold_mem (cfg : Config) (net : Network) (states : Dict)
    (node : ℕ) (ns : List ℕ) :
    ∀ (acc : List ℕ × Rng) (v : ℕ),
    v ∈ (ns.foldl (transmitTrialBackend cfg net states node) acc).1 →
    v ∈ acc.1 ∨ (v ∈ ns ∧ dictGetD states v 0 = 0) := by
  induction ns with
  | nil => intro acc v hv; exact Or.inl hv
  | cons x xs ih =>
    intro acc v hv
    simp only [List.foldl_cons] at hv
    rcases ih _ v hv with hacc | ⟨hxs, h0⟩
    · by_cases hs : dictGetD states x 0 = 0
      · simp only [transmitTrialBackend, if_pos hs] at hacc
        by_cases hlt : ((acc.2.nextFloat).1 <
            backendPairProb net cfg.infectionProbability node x)
        · rw [if_pos hlt] at hacc
          simp only [List.mem_append, List.mem_singleton] at hacc
          rcases hacc with hacc | rfl
          · exact Or.inl hacc
          · exact Or.inr ⟨by simp, hs⟩
        · rw [if_neg hlt] at hacc
          exact Or.inl hacc
      · simp only [transmitTrialBackend, if_neg hs] at hacc
        exact Or.inl hacc
    · exact Or.inr ⟨by simp [hxs], h0⟩

/-- Backend transmission loop over the items: every candidate is a
susceptible (in the post-resolution dict) neighbour of some node. -/
theorem transmitItemFold_mem (cfg : Config) (net : Network) (states : Dict)
    (items : List (ℕ × ℕ)) :
    ∀ (acc : List ℕ × Rng) (v : ℕ),
    v ∈ (items.foldl (transmitItemBackend cfg net states) acc).1 →
    v ∈ acc.1 ∨ ((∃ u, v ∈ net.adj u) ∧ dictGetD states v 0 = 0) := by
  induction items with
  | nil => intro acc v hv; exact Or.inl hv
  | cons it its ih =>
    intro acc v hv
    simp only [List.foldl_cons] at hv
    rcases ih _ v hv with hacc | hrest
    · by_cases h1 : it.2 = 1
      · simp only [transmitItemBackend, if_pos h1, transmitNeighborsBackend] at hacc
        rcases transmitTrialFold_mem cfg net states it.1 (net.adj it.1) acc v hacc with
          hacc' | ⟨hadj, h0⟩
        · exact Or.inl hacc'
        · exact Or.inr ⟨⟨it.1, hadj⟩, h0⟩
      · simp only [transmitItemBackend, if_neg h1] at hacc
        exact Or.inl hacc
    · exact Or.inr hrest

/-- Every candidate recorded by the backend transmission phase is a
neighbour of some node and susceptible in the post-resolution dict. -/
theorem transmitBackend_mem (cfg : Config) (net : Network) (states : Dict)
    (r : Rng) (v : ℕ) (hv : v ∈ (transmitBackend cfg net states r).1) :
    (∃ u, v ∈ net.adj u) ∧ dictGetD states v 0 = 0 := by
  rcases transmitItemFold_mem cfg net states states ([], r) v hv with hacc | h
  · simp at hacc
  · exact h

/-- A `KeyError` propagates through the rest of the src inner loop. -/
theorem transmitTrialSrcFold_none (cfg : Config) (net : Network)
    (states : Dict) (node : ℕ) (ns : List ℕ) :
    ns.foldl (transmitTrialSrc cfg net states node) none = none := by
  induction ns with
  | nil => rfl
  | cons x xs ih => simpa only [List.foldl_cons, transmitTrialSrc] using ih

/-- A `KeyError` propagates through the rest of the src transmission loop. -/
theorem transmitItemSrcFold_none (cfg : Config) (net : Network)
    (states : Dict) (items : List (ℕ × ℕ)) :
    items.foldl (transmitItemSrc cfg net states) none = none := by
  induction items with
  | nil => rfl
  | cons it its ih => simpa only [List.foldl_cons, transmitItemSrc] using ih

/-- Src inner loop: on success, every candidate either was already recorded
or has recorded state 0 (in particular it is a key of the dict). -/
theorem transmitTrialSrcFold_mem (cfg : Config) (net : Network)
    (states : Dict) (node : ℕ) (ns : List ℕ) :
    ∀ (a : List ℕ × Rng) (out : List ℕ × Rng) (v : ℕ),
    ns.foldl (transmitTrialSrc cfg net states node) (some a) = some out →
    v ∈ out.1 → v ∈ a.1 ∨ dictGet states v = some 0 := by
  induction ns with
  | nil =>
    intro a out v h hv
    obtain rfl := Option.some.inj h
    exact Or.inl hv
  | cons x xs ih =>
    intro a out v h hv
    simp only [List.foldl_cons] at h
    cases hstep : transmitTrialSrc cfg net states node (some a) x with
    | none =>
      rw [hstep, transmitTrialSrcFold_none] at h
      cases h
    | some a' =>
      rw [hstep] at h
      rcases ih a' out v h hv with hmem | h0
      · obtain ⟨inf, r⟩ := a
        simp only [transmitTrialSrc] at hstep
        cases hs : dictGet states x with
        | none => rw [hs] at hstep; cases hstep
        | some sv =>
          rw [hs] at hstep
          dsimp only at hstep
          by_cases hsv : sv = 0
          · rw [if_pos hsv] at hstep
            by_cases hlt : ((r.nextFloat).1 <
                srcPairProb net cfg.infectionProbability node x)
            · rw [if_pos hlt] at hstep
              obtain rfl := Option.some.inj hstep
              simp only [List.mem_append, List.mem_singleton] at hmem
              rcases hmem with hmem | rfl
              · exact Or.inl hmem
              · subst hsv
                exact Or.inr hs
            · rw [if_neg hlt] at hstep
              obtain rfl := Option.some.inj hstep
              exact Or.inl hmem
          · rw [if_neg hsv] at hstep
            obtain rfl := Option.some.inj hstep
            exact Or.inl hmem
      · exact Or.inr h0

/-- Src transmission loop over the items: on success, every candidate has
recorded state 0 in the post-resolution dict. -/
theorem transmitItemSrcFold_mem (cfg : Config) (net : Network)
    (states : Dict) (items : List (ℕ × ℕ)) :
    ∀ (a : List ℕ × Rng) (out : List ℕ × Rng) (v : ℕ),
    items.foldl (transmitItemSrc cfg net states) (some a) = some out →
    v ∈ out.1 → v ∈ a.1 ∨ dictGet states v = some 0 := by
  induction items with
  | nil =>
    intro a out v h hv
    obtain rfl := Option.some.inj h
    exact Or.inl hv
  | cons it its ih =>
    intro a out v h hv
    simp only [List.foldl_cons] at h
    cases hstep : transmitItemSrc cfg net states (some a) it with
    | none =>
      rw [hstep, transmitItemSrcFold_none] at h
      cases h
    | some a' =>
      rw [hstep] at h
      rcases ih a' out v h hv with hmem | h0
      · simp only [transmitItemSrc] at hstep
        by_cases h1 : it.2 = 1
        · rw [if_pos h1] at hstep
          simp only [transmitNeighborsSrc] at hstep
          rcases transmitTrialSrcFold_mem cfg net states it.1 (net.adj it.1)
            a a' v hstep hmem with hmem' | h0
          · exact Or.inl hmem'
          · exact Or.inr h0
        · rw [if_neg h1] at hstep
          obtain rfl := Option.some.inj hstep
          exact Or.inl hmem
      · exact Or.inr h0

/-- On success, every candidate of the src transmission phase has recorded
state 0 in the post-resolution dict. -/
theorem transmitSrc_mem (cfg : Config) (net : Network) (states : Dict)
    (r : Rng) (out : List ℕ × Rng)
    (h : transmitSrc cfg net states r = some out) (v : ℕ) (hv : v ∈ out.1) :
    dictGet states v = some 0 := by
  rcases transmitItemSrcFold_mem cfg net states states ([], r) out v h hv with hacc | h0
  · simp at hacc
  · exact h0

/-! ## Commit-phase lemmas -/

/-- The backend commit never touches a node that is not susceptible when the
commit reaches it: its state, infection day and recovery day survive the
whole loop unchanged. -/
theorem commitBackendFold_preserve (cfg : Config) (day : ℕ) (l : List ℕ) :
    ∀ (acc : (Dict × Dict × Dict) × Rng) (v : ℕ),
    dictGetD acc.1.1 v 0 ≠ 0 →
    dictGet (l.foldl (commitNodeBackend cfg day) acc).1.1 v = dictGet acc.1.1 v ∧
    dictGet (l.foldl (commitNodeBackend cfg day) acc).1.2.1 v = dictGet acc.1.2.1 v ∧
    dictGet (l.foldl (commitNodeBackend cfg day) acc).1.2.2 v = dictGet acc.1.2.2 v := by
  induction l with
  | nil => exact fun acc v _ => ⟨rfl, rfl, rfl⟩
  | cons x xs ih =>
    intro acc v hv
    simp only [List.foldl_cons]
    by_cases hx : dictGetD acc.1.1 x 0 = 0
    · have hne : v ≠ x := by
        intro hh
        rw [hh] at hv
        exact hv hx
      have hstep : commitNodeBackend cfg day acc x =
          ((dictSet acc.1.1 x 1, dictSet acc.1.2.1 x day,
            dictSet acc.1.2.2 x (day + (acc.2.randint cfg.recoveryMin cfg.recoveryMax).1)),
           (acc.2.randint cfg.recoveryMin cfg.recoveryMax).2) := by
        simp only [commitNodeBackend, if_pos hx]
      have hv' : dictGetD (commitNodeBackend cfg day acc x).1.1 v 0 ≠ 0 := by
        rw [hstep]
        simpa [dictGetD, dictGet_dictSet_ne _ _ _ _ hne] using hv
      obtain ⟨h1, h2, h3⟩ := ih (commitNodeBackend cfg day acc x) v hv'
      rw [h1, h2, h3, hstep]
      exact ⟨dictGet_dictSet_ne _ _ _ _ hne, dictGet_dictSet_ne _ _ _ _ hne,
        dictGet_dictSet_ne _ _ _ _ hne⟩
    · have hstep : commitNodeBackend cfg day acc x = acc := by
        simp only [commitNodeBackend, if_neg hx]
      rw [hstep]
      exact ih acc v hv

/-- The backend commit promotes every recorded node that is susceptible
when the loop starts. -/
theorem commitBackendFold_promotes (cfg : Config) (day : ℕ) (l : List ℕ) :
    ∀ (acc : (Dict × Dict × Dict) × Rng) (v : ℕ),
    v ∈ l → dictGetD acc.1.1 v 0 = 0 →
    dictGet (l.foldl (commitNodeBackend cfg day) acc).1.1 v = some 1 := by
  induction l with
  | nil => intro acc v hv; simp at hv
  | cons x xs ih =>
    intro acc v hv h0
    simp only [List.foldl_cons]
    by_cases hvx : v = x
    · subst hvx
      have hstep : commitNodeBackend cfg day acc v =
          ((dictSet acc.1.1 v 1, dictSet acc.1.2.1 v day,
            dictSet acc.1.2.2 v (day + (acc.2.randint cfg.recoveryMin cfg.recoveryMax).1)),
           (acc.2.randint cfg.recoveryMin cfg.recoveryMax).2) := by
        simp only [commitNodeBackend, if_pos h0]
      have hv' : dictGetD (commitNodeBackend cfg day acc v).1.1 v 0 ≠ 0 := by
        rw [hstep]
        simp [dictGetD, dictGet_dictSet_self]
      obtain ⟨h1, _, _⟩ := commitBackendFold_preserve cfg day xs
        (commitNodeBackend cfg day acc v) v hv'
      rw [h1, hstep]
      exact dictGet_dictSet_self _ _ _
    · have hvxs : v ∈ xs := by
        rcases List.mem_cons.mp hv with hh | hh
        · exact absurd hh hvx
        · exact hh
      by_cases hx : dictGetD acc.1.1 x 0 = 0
      · have hstep : commitNodeBackend cfg day acc x =
            ((dictSet acc.1.1 x 1, dictSet acc.1.2.1 x day,
              dictSet acc.1.2.2 x (day + (acc.2.randint cfg.recoveryMin cfg.recoveryMax).1)),
             (acc.2.randint cfg.recoveryMin cfg.recoveryMax).2) := by
          simp only [commitNodeBackend, if_pos hx]
        have h0' : dictGetD (commitNodeBackend cfg day acc x).1.1 v 0 = 0 := by
          rw [hstep]
          simpa [dictGetD, dictGet_dictSet_ne _ _ _ _ hvx] using h0
        exact ih _ v hvxs h0'
      · have hstep : commitNodeBackend cfg day acc x = acc := by
          simp only [commitNodeBackend, if_neg hx]
        rw [hstep]
        exact ih acc v hvxs h0

/-- The backend commit touches only keys that are present (given that the
recorded candidates are keys), so it preserves the key list and the state
range of the node-state dict. -/
theorem commitBackendFold_keys_values (cfg : Config) (day : ℕ) (l : List ℕ) :
    ∀ (acc : (Dict × Dict × Dict) × Rng),
    (∀ x ∈ l, x ∈ dictKeys acc.1.1) → (∀ p ∈ acc.1.1, p.2 ≤ 3) →
    dictKeys (l.foldl (commitNodeBackend cfg day) acc).1.1 = dictKeys acc.1.1 ∧
    ∀ p ∈ (l.foldl (commitNodeBackend cfg day) acc).1.1, p.2 ≤ 3 := by
  induction l with
  | nil => exact fun acc _ hval => ⟨rfl, hval⟩
  | cons x xs ih =>
    intro acc hmem hval
    simp only [List.foldl_cons]
    by_cases hx : dictGetD acc.1.1 x 0 = 0
    · have hstep : commitNodeBackend cfg day acc x =
          ((dictSet acc.1.1 x 1, dictSet acc.1.2.1 x day,
            dictSet acc.1.2.2 x (day + (acc.2.randint cfg.recoveryMin cfg.recoveryMax).1)),
           (acc.2.randint cfg.recoveryMin cfg.recoveryMax).2) := by
        simp only [commitNodeBackend, if_pos hx]
      have hkeys : dictKeys (commitNodeBackend cfg day acc x).1.1 = dictKeys acc.1.1 := by
        rw [hstep]
        exact dictKeys_dictSet_of_mem _ _ _ (hmem x (by simp))
      have hval' : ∀ p ∈ (commitNodeBackend cfg day acc x).1.1, p.2 ≤ 3 := by
        rw [hstep]
        exact dictSet_values_le _ _ _ _ hval (by omega)
      obtain ⟨hk, hv⟩ := ih (commitNodeBackend cfg day acc x)
        (fun y hy => by rw [hkeys]; exact hmem y (by simp [hy])) hval'
      exact ⟨by rw [hk, hkeys], hv⟩
    · have hstep : commitNodeBackend cfg day acc x = acc := by
        simp only [commitNodeBackend, if_neg hx]
      rw [hstep]
      exact ih acc (fun y hy => hmem y (by simp [hy])) hval

/-- The src commit never touches a node that is not recorded. -/
theorem commitSrcFold_not_mem (cfg : Config) (day : ℕ) (l : List ℕ) :
    ∀ (acc : (Dict × Dict × Dict) × Rng) (v : ℕ), v ∉ l →
    dictGet (l.foldl (commitNodeSrc cfg day) acc).1.1 v = dictGet acc.1.1 v ∧
    dictGet (l.foldl (commitNodeSrc cfg day) acc).1.2.1 v = dictGet acc.1.2.1 v ∧
    dictGet (l.foldl (commitNodeSrc cfg day) acc).1.2.2 v = dictGet acc.1.2.2 v := by
  induction l with
  | nil => exact fun acc v _ => ⟨rfl, rfl, rfl⟩
  | cons x xs ih =>
    intro acc v hv
    have hne : v ≠ x := by
      intro hh
      exact hv (by simp [hh])
    have hxs : v ∉ xs := fun hh => hv (by simp [hh])
    simp only [List.foldl_cons]
    obtain ⟨h1, h2, h3⟩ := ih (commitNodeSrc cfg day acc x) v hxs
    rw [h1, h2, h3]
    exact ⟨dictGet_dictSet_ne _ _ _ _ hne, dictGet_dictSet_ne _ _ _ _ hne,
      dictGet_dictSet_ne _ _ _ _ hne⟩

/-- The src commit leaves every recorded node infected (state 1). -/
theorem commitSrcFold_mem (cfg : Config) (day : ℕ) (l : List ℕ) :
    ∀ (acc : (Dict × Dict × Dict) × Rng) (v : ℕ), v ∈ l →
    dictGet (l.foldl (commitNodeSrc cfg day) acc).1.1 v = some 1 := by
  induction l with
  | nil => intro acc v hv; simp at hv
  | cons x xs ih =>
    intro acc v hv
    simp only [List.foldl_cons]
    by_cases hvxs : v ∈ xs
    · exact ih _ v hvxs
    · have hvx : v = x := by
        rcases List.mem_cons.mp hv with hh | hh
        · exact hh
        · exact absurd hh hvxs
      subst hvx
      obtain ⟨h1, _, _⟩ := commitSrcFold_not_mem cfg day xs (commitNodeSrc cfg day acc v) v hvxs
      rw [h1]
      exact dictGet_dictSet_self _ _ _

/-- Given that the recorded candidates are keys, the src commit preserves
the key list and the state range of the node-state dict. -/
theorem commitSrcFold_keys_values (cfg : Config) (day : ℕ) (l : List ℕ) :
    ∀ (acc : (Dict × Dict × Dict) × Rng),
    (∀ x ∈ l, x ∈ dictKeys acc.1.1) → (∀ p ∈ acc.1.1, p.2 ≤ 3) →
    dictKeys (l.foldl (commitNodeSrc cfg day) acc).1.1 = dictKeys acc.1.1 ∧
    ∀ p ∈ (l.foldl (commitNodeSrc cfg day) acc).1.1, p.2 ≤ 3 := by
  induction l with
  | nil => exact fun acc _ hval => ⟨rfl, hval⟩
  | cons x xs ih =>
    intro acc hmem hval
    simp only [List.foldl_cons]
    have hkeys : dictKeys (commitNodeSrc cfg day acc x).1.1 = dictKeys acc.1.1 :=
      dictKeys_dictSet_of_mem _ _ _ (hmem x (by simp))
    have hval' : ∀ p ∈ (commitNodeSrc cfg day acc x).1.1, p.2 ≤ 3 :=
      dictSet_values_le _ _ _ _ hval (by omega)
    obtain ⟨hk, hv⟩ := ih (commitNodeSrc cfg day acc x)
      (fun y hy => by rw [hkeys]; exact hmem y (by simp [hy])) hval'
    exact ⟨by rw [hk, hkeys], hv⟩

/-! ## Daily-step invariant preservation -/

/-- One backend day preserves the state/statistics invariants. -/
theorem simulateDayBackend_inv (cfg : Config) (net : Network) (st : SimState)
    (r : Rng) (st' : SimState) (r' : Rng) (b : Bool)
    (hadj : AdjClosed net)
    (hS : StatesOK net st.nodeStates) (hStats : StatsOK net.nodes.length st)
    (h : simulateDayBackend cfg net st r = some (st', r', b)) :
    StatesOK net st'.nodeStates ∧ StatsOK net.nodes.length st' := by
  simp only [simulateDayBackend] at h
  cases hres : resolvePhase cfg (st.currentDay + 1) st.recoveryDay st.nodeStates
      st.immunityUntil r with
  | none => rw [hres] at h; cases h
  | some out =>
    rw [hres] at h
    obtain ⟨⟨states1, immun1⟩, r1⟩ := out
    dsimp only at h
    simp only [Option.some.injEq, Prod.mk.injEq] at h
    obtain ⟨hst, _, _⟩ := h
    subst hst
    simp only [resolvePhase] at hres
    have hmem : ∀ it ∈ st.nodeStates, it.1 ∈ net.nodes := by
      intro it hit
      rw [← hS.1]
      exact List.mem_map_of_mem Prod.fst hit
    obtain ⟨hkeys1, hvals1⟩ := resolveFold_statesOK cfg (st.currentDay + 1)
      st.recoveryDay net.nodes st.nodeStates st.nodeStates st.immunityUntil r
      ((states1, immun1), r1) hres hmem hS.1 hS.2
    have hcand : ∀ x ∈ (transmitBackend cfg net states1 r1).1, x ∈ dictKeys states1 := by
      intro x hx
      obtain ⟨⟨u, hu⟩, _⟩ := transmitBackend_mem cfg net states1 r1 x hx
      rw [hkeys1]
      exact hadj u x hu
    obtain ⟨hkeys2, hvals2⟩ := commitBackendFold_keys_values cfg (st.currentDay + 1)
      (transmitBackend cfg net states1 r1).1
      ((states1, st.infectionDay, st.recoveryDay), (transmitBackend cfg net states1 r1).2)
      hcand hvals1
    have hS' : StatesOK net (commitBackend cfg (st.currentDay + 1)
        (transmitBackend cfg net states1 r1).1 states1 st.infectionDay st.recoveryDay
        (transmitBackend cfg net states1 r1).2).1.1 := by
      refine ⟨?_, ?_⟩
      · simp only [commitBackend]
        rw [hkeys2, hkeys1]
      · simpa only [commitBackend] using hvals2
    constructor
    · exact hS'
    · exact statsOK_updateStats net _ hS' ⟨hStats.1, hStats.2.1, hStats.2.2.1,
        hStats.2.2.2.1, hStats.2.2.2.2⟩

/-- One src day preserves the state/statistics invariants. -/
theorem simulateDaySrc_inv (cfg : Config) (net : Network) (st : SimState)
    (r : Rng) (st' : SimState) (r' : Rng) (b : Bool)
    (hS : StatesOK net st.nodeStates) (hStats : StatsOK net.nodes.length st)
    (h : simulateDaySrc cfg net st r = some (st', r', b)) :
    StatesOK net st'.nodeStates ∧ StatsOK net.nodes.length st' := by
  simp only [simulateDaySrc] at h
  cases hres : resolvePhase cfg (st.currentDay + 1) st.recoveryDay st.nodeStates
      st.immunityUntil r with
  | none => rw [hres] at h; cases h
  | some out =>
    rw [hres] at h
    obtain ⟨⟨states1, immun1⟩, r1⟩ := out
    dsimp only at h
    cases htr : transmitSrc cfg net states1 r1 with
    | none => rw [htr] at h; cases h
    | some tout =>
      rw [htr] at h
      obtain ⟨newInf, r2⟩ := tout
      dsimp only at h
      simp only [Option.some.injEq, Prod.mk.injEq] at h
      obtain ⟨hst, _, _⟩ := h
      subst hst
      simp only [resolvePhase] at hres
      have hmem : ∀ it ∈ st.nodeStates, it.1 ∈ net.nodes := by
        intro it hit
        rw [← hS.1]
        exact List.mem_map_of_mem Prod.fst hit
      obtain ⟨hkeys1, hvals1⟩ := resolveFold_statesOK cfg (st.currentDay + 1)
        st.recoveryDay net.nodes st.nodeStates st.nodeStates st.immunityUntil r
        ((states1, immun1), r1) hres hmem hS.1 hS.2
      have hcand : ∀ x ∈ newInf, x ∈ dictKeys states1 := by
        intro x hx
        have := transmitSrc_mem cfg net states1 r1 (newInf, r2) htr x hx
        rw [mem_dictKeys_iff_isSome, this]
        rfl
      obtain ⟨hkeys2, hvals2⟩ := commitSrcFold_keys_values cfg (st.currentDay + 1)
        newInf ((states1, st.infectionDay, st.recoveryDay), r2) hcand hvals1
      have hS' : StatesOK net (commitSrc cfg (st.currentDay + 1)
          newInf states1 st.infectionDay st.recoveryDay r2).1.1 := by
        refine ⟨?_, ?_⟩
        · simp only [commitSrc]
          rw [hkeys2, hkeys1]
        · simpa only [commitSrc] using hvals2
      constructor
      · exact hS'
      · exact statsOK_updateStats net _ hS' ⟨hStats.1, hStats.2.1, hStats.2.2.1,
          hStats.2.2.2.1, hStats.2.2.2.2⟩

/-! ## Initialization establishes the invariants -/

/-- A successful `initialize_infection` on a fresh simulation leaves a
well-formed state: the state dict covers exactly the network's nodes with
states in range, and the single day-0 snapshot conserves the node count. -/
theorem initInfection_inv (cfg : Config) (net : Network) (r : Rng)
    (st0 : SimState) (r0 : Rng) (hnodup : net.nodes.Nodup)
    (h : initInfection cfg net freshSim r = some (st0, r0)) :
    StatesOK net st0.nodeStates ∧ StatsOK net.nodes.length st0 := by
  simp only [initInfection] at h
  split at h
  · cases h
  · simp only [Option.some.injEq, Prod.mk.injEq] at h
    obtain ⟨hst, _⟩ := h
    subst hst
    have hkeys0 : dictKeys (net.nodes.foldl (fun d node => dictSet d node 0)
        freshSim.nodeStates) = net.nodes := by
      rw [setAll_keys net.nodes _ hnodup (by intro v _ hv; simp [freshSim, dictKeys] at hv)]
      rfl
    have hvals0 : ∀ p ∈ (net.nodes.foldl (fun d node => dictSet d node 0)
        freshSim.nodeStates), p.2 ≤ 3 :=
      setAll_values_le net.nodes _ (by intro p hp; simp [freshSim] at hp)
    have hchosen : ∀ v ∈ (r.sample net.nodes
        (pyInt (cfg.initialInfectedPercent * net.nodes.length)).toNat).1,
        v ∈ dictKeys (net.nodes.foldl (fun d node => dictSet d node 0)
          freshSim.nodeStates) := by
      intro v hv
      rw [hkeys0]
      exact sample_subset _ _ _ v hv
    obtain ⟨hkeys1, hvals1⟩ := infect_keys_values cfg freshSim.currentDay
      (r.sample net.nodes (pyInt (cfg.initialInfectedPercent * net.nodes.length)).toNat).1
      ((net.nodes.foldl (fun d node => dictSet d node 0) freshSim.nodeStates,
        freshSim.infectionDay, freshSim.recoveryDay),
       (r.sample net.nodes (pyInt (cfg.initialInfectedPercent * net.nodes.length)).toNat).2)
      hchosen hvals0
    refine ⟨⟨hkeys1.trans hkeys0, hvals1⟩, ?_⟩
    exact statsOK_updateStats net _ ⟨hkeys1.trans hkeys0, hvals1⟩
      ⟨rfl, rfl, rfl, rfl, by intro i hi; simp [freshSim] at hi⟩

/-! ## Engine selection

The repository realises the two transmission/commit policies as two engine
modules; a run uses one engine throughout.  The selector makes statements
about "each daily step" uniform in the engine. -/

/-- The two engine variants of the repository. -/
inductive Engine where
  | backend
  | src
deriving DecidableEq

/-- `simulate_day` of the selected engine. -/
def simulateDay (e : Engine) : Config → Network → SimState → Rng →
    Option (SimState × Rng × Bool) :=
  match e with
  | Engine.backend => simulateDayBackend
  | Engine.src => simulateDaySrc

/-- `m` consecutive daily steps of the selected engine. -/
def runDaysEngine (e : Engine) : Config → Network → ℕ → SimState × Rng →
    Option (SimState × Rng) :=
  match e with
  | Engine.backend => runDaysBackend
  | Engine.src => runDaysSrc

/-- Any number of daily steps of either engine preserves the invariants. -/
theorem runDaysEngine_inv (e : Engine) (cfg : Config) (net : Network)
    (m : ℕ) (st : SimState) (r : Rng) (st' : SimState) (r' : Rng)
    (hadj : AdjClosed net)
    (hS : StatesOK net st.nodeStates) (hStats : StatsOK net.nodes.length st)
    (h : runDaysEngine e cfg net m (st, r) = some (st', r')) :
    StatesOK net st'.nodeStates ∧ StatsOK net.nodes.length st' := by
  induction m generalizing st r with
  | zero =>
    cases e <;>
      simp only [runDaysEngine, runDaysBackend, runDaysSrc,
        Option.some.injEq, Prod.mk.injEq] at h <;>
      · obtain ⟨rfl, rfl⟩ := h
        exact ⟨hS, hStats⟩
  | succ m ih =>
    cases e with
    | backend =>
      simp only [runDaysEngine, runDaysBackend] at h
      cases hstep : simulateDayBackend cfg net st r with
      | none => rw [hstep] at h; cases h
      | some out =>
        rw [hstep] at h
        obtain ⟨st1, r1, b1⟩ := out
        obtain ⟨hS1, hStats1⟩ := simulateDayBackend_inv cfg net st r st1 r1 b1
          hadj hS hStats hstep
        exact ih st1 r1 hS1 hStats1 h
    | src =>
      simp only [runDaysEngine, runDaysSrc] at h
      cases hstep : simulateDaySrc cfg net st r with
      | none => rw [hstep] at h; cases h
      | some out =>
        rw [hstep] at h
        obtain ⟨st1, r1, b1⟩ := out
        obtain ⟨hS1, hStats1⟩ := simulateDaySrc_inv cfg net st r st1 r1 b1
          hS hStats hstep
        exact ih st1 r1 hS1 hStats1 h

/-! ## Claim C1 -/

/-- C1: for every simulation initialized via `initialize_infection` (on a
fresh instance) and then advanced any number of days by the daily step of
either engine, every snapshot of the StatisticsSeries satisfies
`susceptible + infected + recovered + deceased = node_count`, and all five
statistics arrays have equal length. -/
theorem C1_conservation (e : Engine) (cfg : Config) (net : Network)
    (r r0 r1 : Rng) (m : ℕ) (st0 st : SimState)
    (hnodup : net.nodes.Nodup) (hadj : AdjClosed net)
    (hinit : initInfection cfg net freshSim r = some (st0, r0))
    (hrun : runDaysEngine e cfg net m (st0, r0) = some (st, r1)) :
    (st.statsSusceptible.length = st.statsDay.length ∧
     st.statsInfected.length = st.statsDay.length ∧
     st.statsRecovered.length = st.statsDay.length ∧
     st.statsDeceased.length = st.statsDay.length) ∧
    ∀ i < st.statsDay.length,
      st.statsSusceptible.getD i 0 + st.statsInfected.getD i 0 +
        st.statsRecovered.getD i 0 + st.statsDeceased.getD i 0 = net.nodes.length := by
  obtain ⟨hS0, hStats0⟩ := initInfection_inv cfg net r st0 r0 hnodup hinit
  obtain ⟨_, hStats⟩ := runDaysEngine_inv e cfg net m st0 r0 st r1 hadj hS0 hStats0 hrun
  exact ⟨⟨hStats.1, hStats.2.1, hStats.2.2.1, hStats.2.2.2.1⟩, hStats.2.2.2.2⟩

/-- A tiny concrete network used to instantiate the claim theorems:
three nodes, an edge between 0 and 1 (no `weight` attribute), node 2
isolated. -/
def netW : Network :=
  { nodes := [0, 1, 2]
    adj := fun u => if u = 0 then [1] else if u = 1 then [0] else []
    weight := fun _ _ => none
    age := fun _ => 0
    health := fun _ => 0
    mobility := fun _ => 1 }

/-- A concrete configuration for instantiating the claim theorems. -/
def cfgW : Config :=
  ⟨1/2, 2, 3, 1/3, 0, 5⟩

/-- The concrete network's adjacency stays inside its node list. -/
theorem netW_adjClosed : AdjClosed netW := by
  intro u v hv
  by_cases h0 : u = 0
  · simp [netW, h0] at hv
    simp [netW, hv]
  · by_cases h1 : u = 1
    · simp [netW, h0, h1] at hv
      simp [netW, hv]
    · simp [netW, h0, h1] at hv

/-- The state produced by `initialize_infection` on the concrete instance
(tape `[5, 9]`: node 2 is sampled, its recovery period drawn as 3). -/
def stInitW : SimState :=
  ⟨[(0, 0), (1, 0), (2, 1)], [(2, 0)], [(2, 3)], [],
   [2], [1], [0], [0], [0], 0⟩

/-- The state after two further backend days on the concrete instance. -/
def stRunW : SimState :=
  ⟨[(0, 0), (1, 0), (2, 1)], [(2, 0)], [(2, 3)], [],
   [2, 2, 2], [1, 1, 1], [0, 0, 0], [0, 0, 0], [0, 1, 2], 2⟩

/-- Witness for C1 on the concrete three-node instance: the hypotheses hold
and the conserved snapshots follow from the claim theorem. -/
theorem C1_conservation_witness :
    netW.nodes.Nodup ∧
    initInfection cfgW netW freshSim ⟨[5, 9]⟩ = some (stInitW, ⟨[]⟩) ∧
    runDaysEngine Engine.backend cfgW netW 2 (stInitW, ⟨[]⟩) = some (stRunW, ⟨[]⟩) ∧
    ((stRunW.statsSusceptible.length = stRunW.statsDay.length ∧
      stRunW.statsInfected.length = stRunW.statsDay.length ∧
      stRunW.statsRecovered.length = stRunW.statsDay.length ∧
      stRunW.statsDeceased.length = stRunW.statsDay.length) ∧
     ∀ i < stRunW.statsDay.length,
       stRunW.statsSusceptible.getD i 0 + stRunW.statsInfected.getD i 0 +
         stRunW.statsRecovered.getD i 0 + stRunW.statsDeceased.getD i 0 =
           netW.nodes.length) := by
  have hinit : initInfection cfgW netW freshSim ⟨[5, 9]⟩ = some (stInitW, ⟨[]⟩) := by
    norm_num [initInfection, pyInt, Rng.sample, Rng.next, Rng.randint, infectInitial,
      dictSet, updateStats, countState, freshSim, netW, cfgW, stInitW, dictGet]
  have hrun : runDaysEngine Engine.backend cfgW netW 2 (stInitW, ⟨[]⟩) =
      some (stRunW, ⟨[]⟩) := by
    norm_num [runDaysEngine, runDaysBackend, simulateDayBackend, resolvePhase, resolveNode,
      transmitBackend, transmitItemBackend, transmitNeighborsBackend, transmitTrialBackend,
      commitBackend, commitNodeBackend, Rng.nextFloat, Rng.next, Rng.randint,
      dictSet, dictGet, dictGetD, updateStats, countState, netW, cfgW, stInitW, stRunW,
      backendPairProb, adjustedProbBackend, socialDistance]
  exact ⟨by decide, hinit, hrun,
    C1_conservation Engine.backend cfgW netW ⟨[5, 9]⟩ ⟨[]⟩ ⟨[]⟩ 2 stInitW stRunW
      (by decide) netW_adjClosed hinit hrun⟩

/-! ## Claims C5 and C10: per-pair transmission probabilities -/

/-- Modelled from the spec's words, for comparison with the code: the
weight-only policy `p = 0.5 * infection_probability / weight²`. -/
def specWeightOnlyProb (p w : ℚ) : ℚ :=
  0.5 * p / w ^ 2

/-- Modelled from the spec's words, for comparison with the code: the
demographic policy
`p = infection_probability * health_factor * age_factor * mobility_factor`
with `health_factor = 1 - susceptible.health`,
`age_factor = 1 + max(0, (susceptible.age - 50) / 100)`,
`mobility_factor = (infected.mobility + susceptible.mobility) / 2`,
capped at 0.95. -/
def specDemographicProb (p health age mobI mobS : ℚ) : ℚ :=
  min (p * (1 - health) * (1 + max 0 ((age - 50) / 100)) * ((mobI + mobS) / 2)) 0.95

/-- C5: for every (infected, susceptible-neighbour) pair, the per-pair
probability used by the backend engine's transmission phase equals the
spec's weight-only formula `0.5 * infection_probability / weight²` at the
connecting edge's social distance, and the probability used by the src
engine's transmission phase equals the spec's demographic formula at the
pair's attributes; each engine applies its policy for the whole run, the
policy being selected by which engine the run instantiates. -/
theorem C5_transmission_formulas :
    (∀ (net : Network) (p : ℚ) (u v : ℕ),
      backendPairProb net p u v = specWeightOnlyProb p (socialDistance net u v)) ∧
    (∀ (net : Network) (p : ℚ) (u v : ℕ),
      srcPairProb net p u v = specDemographicProb p (net.health v) (net.age v)
        (net.mobility u) (net.mobility v)) := by
  constructor
  · intro net p u v
    simp only [backendPairProb, adjustedProbBackend, specWeightOnlyProb]
    ring
  · intro net p u v
    rfl

/-- C10: a missing `weight` attribute defaults the social distance to 1.0,
making the backend per-pair probability exactly `0.5 * infection_probability`;
and networks produced by the engines' own `generate_network` carry no
`weight` attribute at all, so this holds for every pair there. -/
theorem C10_default_weight :
    (∀ (net : Network) (p : ℚ) (u v : ℕ), net.weight u v = none →
      socialDistance net u v = 1 ∧ backendPairProb net p u v = 0.5 * p) ∧
    (∀ (model : String) (n m : ℕ)
      (topo : String → ℕ → ℕ → List ℕ × (ℕ → List ℕ))
      (attrs : ℕ → ℚ × ℚ × ℚ) (net : Network),
      generateNetwork model n m topo attrs = .ok net →
      ∀ (p : ℚ) (u v : ℕ),
        net.weight u v = none ∧ backendPairProb net p u v = 0.5 * p) := by
  have base : ∀ (net : Network) (p : ℚ) (u v : ℕ), net.weight u v = none →
      socialDistance net u v = 1 ∧ backendPairProb net p u v = 0.5 * p := by
    intro net p u v hw
    have hsd : socialDistance net u v = 1 := by
      simp [socialDistance, hw]
    refine ⟨hsd, ?_⟩
    simp only [backendPairProb, hsd, adjustedProbBackend]
    ring
  refine ⟨base, ?_⟩
  intro model n m topo attrs net hok p u v
  have hw : net.weight u v = none := by
    simp only [generateNetwork] at hok
    split at hok
    · obtain rfl := Except.ok.inj hok
      rfl
    · cases hok
  exact ⟨hw, (base net p u v hw).2⟩

/-- Witness for C10: on the concrete weightless network and on a network
generated by `generate_network`, the backend pair probability is exactly
half the infection probability. -/
theorem C10_default_weight_witness :
    netW.weight 0 1 = none ∧
    (socialDistance netW 0 1 = 1 ∧
      backendPairProb netW (1/2) 0 1 = 0.5 * (1/2)) ∧
    generateNetwork "barabasi_albert" 3 1 (fun _ _ _ => ([0, 1], fun _ => []))
        (fun _ => (0, 0, 0)) = .ok
        { nodes := [0, 1]
          adj := fun _ => []
          weight := fun _ _ => none
          age := fun v => ((fun _ => ((0 : ℚ), (0 : ℚ), (0 : ℚ))) v).1
          health := fun v => ((fun _ => ((0 : ℚ), (0 : ℚ), (0 : ℚ))) v).2.1
          mobility := fun v => ((fun _ => ((0 : ℚ), (0 : ℚ), (0 : ℚ))) v).2.2 } ∧
    (({ nodes := [0, 1]
        adj := fun _ => []
        weight := fun _ _ => none
        age := fun v => ((fun _ => ((0 : ℚ), (0 : ℚ), (0 : ℚ))) v).1
        health := fun v => ((fun _ => ((0 : ℚ), (0 : ℚ), (0 : ℚ))) v).2.1
        mobility := fun v => ((fun _ => ((0 : ℚ), (0 : ℚ), (0 : ℚ))) v).2.2 } :
          Network).weight 0 1 = none ∧
      backendPairProb
        { nodes := [0, 1]
          adj := fun _ => []
          weight := fun _ _ => none
          age := fun v => ((fun _ => ((0 : ℚ), (0 : ℚ), (0 : ℚ))) v).1
          health := fun v => ((fun _ => ((0 : ℚ), (0 : ℚ), (0 : ℚ))) v).2.1
          mobility := fun v => ((fun _ => ((0 : ℚ), (0 : ℚ), (0 : ℚ))) v).2.2 }
        (1/2) 0 1 = 0.5 * (1/2)) :=
  ⟨rfl, C10_default_weight.1 netW (1/2) 0 1 rfl, by rfl,
   C10_default_weight.2 "barabasi_albert" 3 1 (fun _ _ _ => ([0, 1], fun _ => []))
     (fun _ => (0, 0, 0)) _ (by rfl) (1/2) 0 1⟩

/-! ## Claim C3: Deceased is terminal -/

/-- In a dict with duplicate-free keys, lookup agrees with membership. -/
theorem dictGet_of_mem_nodup (d : Dict) (v a : ℕ)
    (hnodup : (dictKeys d).Nodup) (h : (v, a) ∈ d) : dictGet d v = some a := by
  induction d with
  | nil => simp at h
  | cons p rest ih =>
    obtain ⟨x, b⟩ := p
    rcases List.mem_cons.mp h with hh | hh
    · obtain ⟨rfl, rfl⟩ := Prod.mk.injEq .. ▸ hh
      simp [dictGet]
    · have hvrest : v ∈ dictKeys rest :=
        List.mem_map_of_mem Prod.fst hh
      have hxv : ¬(x = v) := by
        intro hx
        subst hx
        exact (List.nodup_cons.mp (by simpa [dictKeys] using hnodup)).1 hvrest
      simp only [dictGet, if_neg hxv]
      exact ih (List.nodup_cons.mp (by simpa [dictKeys] using hnodup)).2 hh

/-- A successful resolution iteration leaves the entries of every other
node untouched, in the state dict and in the immunity dict. -/
theorem resolveNode_preserve_ne (cfg : Config) (day : ℕ) (recDay : Dict)
    (s i : Dict) (r : Rng) (it : ℕ × ℕ) (res : (Dict × Dict) × Rng) (v : ℕ)
    (hne : it.1 ≠ v)
    (h : resolveNode cfg day recDay (some ((s, i), r)) it = some res) :
    dictGet res.1.1 v = dictGet s v ∧ dictGet res.1.2 v = dictGet i v := by
  have hv : v ≠ it.1 := fun hh => hne hh.symm
  simp only [resolveNode] at h
  by_cases h1 : it.2 = 1
  · rw [if_pos h1] at h
    cases hrd : dictGet recDay it.1 with
    | none => rw [hrd] at h; cases h
    | some rd =>
      rw [hrd] at h
      dsimp only at h
      by_cases h2 : rd ≤ day
      · rw [if_pos h2] at h
        by_cases h3 : (r.nextFloat).1 < cfg.mortalityRate
        · rw [if_pos h3] at h
          obtain rfl := Option.some.inj h
          exact ⟨dictGet_dictSet_ne _ _ _ _ hv, rfl⟩
        · rw [if_neg h3] at h
          obtain rfl := Option.some.inj h
          exact ⟨dictGet_dictSet_ne _ _ _ _ hv, dictGet_dictSet_ne _ _ _ _ hv⟩
      · rw [if_neg h2] at h
        obtain rfl := Option.some.inj h
        exact ⟨rfl, rfl⟩
  · rw [if_neg h1] at h
    by_cases h2 : it.2 = 2
    · rw [if_pos h2] at h
      cases hiu : dictGet i it.1 with
      | none =>
        rw [hiu] at h
        dsimp only at h
        obtain rfl := Option.some.inj h
        exact ⟨rfl, rfl⟩
      | some iu =>
        rw [hiu] at h
        dsimp only at h
        by_cases h3 : iu ≤ day
        · rw [if_pos h3] at h
          obtain rfl := Option.some.inj h
          exact ⟨dictGet_dictSet_ne _ _ _ _ hv, rfl⟩
        · rw [if_neg h3] at h
          obtain rfl := Option.some.inj h
          exact ⟨rfl, rfl⟩
    · rw [if_neg h2] at h
      obtain rfl := Option.some.inj h
      exact ⟨rfl, rfl⟩

/-- Resolving an item whose snapshot state is neither infected (1) nor
recovered (2) is a no-op. -/
theorem resolveNode_id (cfg : Config) (day : ℕ) (recDay : Dict)
    (s i : Dict) (r : Rng) (it : ℕ × ℕ) (h1 : it.2 ≠ 1) (h2 : it.2 ≠ 2) :
    resolveNode cfg day recDay (some ((s, i), r)) it = some ((s, i), r) := by
  simp [resolveNode, h1, h2]

/-- Through the whole resolution loop, a node that is deceased at the start
of the day keeps state 3 and its immunity entry. -/
theorem resolveFold_deceased (cfg : Config) (day : ℕ) (recDay : Dict)
    (v : ℕ) (items : List (ℕ × ℕ)) :
    ∀ (s i : Dict) (r : Rng) (res : (Dict × Dict) × Rng),
    items.foldl (resolveNode cfg day recDay) (some ((s, i), r)) = some res →
    (∀ a, (v, a) ∈ items → a = 3) →
    dictGet s v = some 3 →
    dictGet res.1.1 v = some 3 ∧ dictGet res.1.2 v = dictGet i v := by
  induction items with
  | nil =>
    intro s i r res h _ h3
    obtain rfl := Option.some.inj h
    exact ⟨h3, rfl⟩
  | cons it its ih =>
    intro s i r res h hitems h3
    simp only [List.foldl_cons] at h
    cases hstep : resolveNode cfg day recDay (some ((s, i), r)) it with
    | none =>
      rw [hstep, resolveFold_none] at h
      cases h
    | some acc' =>
      rw [hstep] at h
      obtain ⟨⟨s', i'⟩, r'⟩ := acc'
      have hitems' : ∀ a, (v, a) ∈ its → a = 3 := fun a ha => hitems a (by simp [ha])
      by_cases hvit : it.1 = v
      · obtain ⟨x, a⟩ := it
        simp only at hvit
        subst hvit
        have ha : a = 3 := hitems a (by simp)
        subst ha
        rw [resolveNode_id cfg day recDay s i r (x, 3) (by simp) (by simp)] at hstep
        have h' := Option.some.inj hstep
        injection h' with h1 h2
        injection h1 with hs' hi'
        subst hs'
        subst hi'
        subst h2
        exact ih s i r res h hitems' h3
      · obtain ⟨hs, hi⟩ := resolveNode_preserve_ne cfg day recDay s i r it
          ((s', i'), r') v hvit hstep
        simp only at hs hi
        obtain ⟨hst, himm⟩ := ih s' i' r' res h hitems' (by rw [hs]; exact h3)
        exact ⟨hst, by rw [himm, hi]⟩

/-- The resolution loop preserves duplicate-freeness of the state dict's
keys. -/
theorem resolveFold_keys_nodup (cfg : Config) (day : ℕ) (recDay : Dict)
    (items : List (ℕ × ℕ)) :
    ∀ (s i : Dict) (r : Rng) (res : (Dict × Dict) × Rng),
    items.foldl (resolveNode cfg day recDay) (some ((s, i), r)) = some res →
    (dictKeys s).Nodup → (dictKeys res.1.1).Nodup := by
  induction items with
  | nil =>
    intro s i r res h hn
    obtain rfl := Option.some.inj h
    exact hn
  | cons it its ih =>
    intro s i r res h hn
    simp only [List.foldl_cons] at h
    cases hstep : resolveNode cfg day recDay (some ((s, i), r)) it with
    | none =>
      rw [hstep, resolveFold_none] at h
      cases h
    | some acc' =>
      rw [hstep] at h
      obtain ⟨⟨s', i'⟩, r'⟩ := acc'
      rcases resolveNode_some_states cfg day recDay s i r it _ hstep with hs | ⟨c, _, hs⟩
      · simp only at hs
        subst hs
        exact ih s' i' r' res h hn
      · simp only at hs
        subst hs
        exact ih _ i' r' res h (dictKeys_dictSet_nodup _ _ _ hn)

/-- The backend commit preserves duplicate-freeness of the state dict's
keys. -/
theorem commitBackendFold_keys_nodup (cfg : Config) (day : ℕ) (l : List ℕ) :
    ∀ (acc : (Dict × Dict × Dict) × Rng),
    (dictKeys acc.1.1).Nodup →
    (dictKeys (l.foldl (commitNodeBackend cfg day) acc).1.1).Nodup := by
  induction l with
  | nil => exact fun acc hn => hn
  | cons x xs ih =>
    intro acc hn
    simp only [List.foldl_cons]
    by_cases hx : dictGetD acc.1.1 x 0 = 0
    · refine ih _ ?_
      have hstep : (commitNodeBackend cfg day acc x).1.1 = dictSet acc.1.1 x 1 := by
        simp only [commitNodeBackend, if_pos hx]
      rw [hstep]
      exact dictKeys_dictSet_nodup _ _ _ hn
    · refine ih _ ?_
      have hstep : commitNodeBackend cfg day acc x = acc := by
        simp only [commitNodeBackend, if_neg hx]
      rw [hstep]
      exact hn

/-- The src commit preserves duplicate-freeness of the state dict's keys. -/
theorem commitSrcFold_keys_nodup (cfg : Config) (day : ℕ) (l : List ℕ) :
    ∀ (acc : (Dict × Dict × Dict) × Rng),
    (dictKeys acc.1.1).Nodup →
    (dictKeys (l.foldl (commitNodeSrc cfg day) acc).1.1).Nodup := by
  induction l with
  | nil => exact fun acc hn => hn
  | cons x xs ih =>
    intro acc hn
    simp only [List.foldl_cons]
    exact ih _ (dictKeys_dictSet_nodup _ _ _ hn)

/-- One daily step of either engine leaves a deceased node's state and all
three of its timers untouched (and keeps the key list duplicate-free). -/
theorem simulateDay_deceased_step (e : Engine) (cfg : Config) (net : Network)
    (st : SimState) (r : Rng) (st' : SimState) (r' : Rng) (b : Bool) (v : ℕ)
    (hnodup : (dictKeys st.nodeStates).Nodup)
    (h3 : dictGet st.nodeStates v = some 3)
    (h : simulateDay e cfg net st r = some (st', r', b)) :
    dictGet st'.nodeStates v = some 3 ∧
    dictGet st'.infectionDay v = dictGet st.infectionDay v ∧
    dictGet st'.recoveryDay v = dictGet st.recoveryDay v ∧
    dictGet st'.immunityUntil v = dictGet st.immunityUntil v ∧
    (dictKeys st'.nodeStates).Nodup := by
  have hitems : ∀ a, (v, a) ∈ st.nodeStates → a = 3 := by
    intro a ha
    have hg := dictGet_of_mem_nodup st.nodeStates v a hnodup ha
    rw [h3] at hg
    exact (Option.some.inj hg).symm
  cases e with
  | backend =>
    simp only [simulateDay, simulateDayBackend] at h
    cases hres : resolvePhase cfg (st.currentDay + 1) st.recoveryDay st.nodeStates
        st.immunityUntil r with
    | none => rw [hres] at h; cases h
    | some out =>
      rw [hres] at h
      obtain ⟨⟨states1, immun1⟩, r1⟩ := out
      dsimp only at h
      simp only [Option.some.injEq, Prod.mk.injEq] at h
      obtain ⟨hst, _, _⟩ := h
      subst hst
      simp only [resolvePhase] at hres
      obtain ⟨h3', himm⟩ := resolveFold_deceased cfg (st.currentDay + 1) st.recoveryDay v
        st.nodeStates st.nodeStates st.immunityUntil r ((states1, immun1), r1)
        hres hitems h3
      have hnodup1 : (dictKeys states1).Nodup :=
        resolveFold_keys_nodup cfg (st.currentDay + 1) st.recoveryDay st.nodeStates
          st.nodeStates st.immunityUntil r ((states1, immun1), r1) hres hnodup
      have hv0 : dictGetD states1 v 0 ≠ 0 := by
        simp [dictGetD, h3']
      obtain ⟨hc1, hc2, hc3⟩ := commitBackendFold_preserve cfg (st.currentDay + 1)
        (transmitBackend cfg net states1 r1).1
        ((states1, st.infectionDay, st.recoveryDay),
         (transmitBackend cfg net states1 r1).2) v hv0
      refine ⟨hc1.trans h3', hc2, hc3, himm, ?_⟩
      exact commitBackendFold_keys_nodup cfg (st.currentDay + 1)
        (transmitBackend cfg net states1 r1).1
        ((states1, st.infectionDay, st.recoveryDay),
         (transmitBackend cfg net states1 r1).2) hnodup1
  | src =>
    simp only [simulateDay, simulateDaySrc] at h
    cases hres : resolvePhase cfg (st.currentDay + 1) st.recoveryDay st.nodeStates
        st.immunityUntil r with
    | none => rw [hres] at h; cases h
    | some out =>
      rw [hres] at h
      obtain ⟨⟨states1, immun1⟩, r1⟩ := out
      dsimp only at h
      cases htr : transmitSrc cfg net states1 r1 with
      | none => rw [htr] at h; cases h
      | some tout =>
        rw [htr] at h
        obtain ⟨newInf, r2⟩ := tout
        dsimp only at h
        simp only [Option.some.injEq, Prod.mk.injEq] at h
        obtain ⟨hst, _, _⟩ := h
        subst hst
        simp only [resolvePhase] at hres
        obtain ⟨h3', himm⟩ := resolveFold_deceased cfg (st.currentDay + 1) st.recoveryDay v
          st.nodeStates st.nodeStates st.immunityUntil r ((states1, immun1), r1)
          hres hitems h3
        have hnodup1 : (dictKeys states1).Nodup :=
          resolveFold_keys_nodup cfg (st.currentDay + 1) st.recoveryDay st.nodeStates
            st.nodeStates st.immunityUntil r ((states1, immun1), r1) hres hnodup
        have hvnot : v ∉ newInf := by
          intro hv
          have := transmitSrc_mem cfg net states1 r1 (newInf, r2) htr v hv
          rw [h3'] at this
          cases this
        obtain ⟨hc1, hc2, hc3⟩ := commitSrcFold_not_mem cfg (st.currentDay + 1) newInf
          ((states1, st.infectionDay, st.recoveryDay), r2) v hvnot
        refine ⟨hc1.trans h3', hc2, hc3, himm, ?_⟩
        exact commitSrcFold_keys_nodup cfg (st.currentDay + 1) newInf
          ((states1, st.infectionDay, st.recoveryDay), r2) hnodup1

/-- C3: for every node and every sequence of daily steps of either engine,
once the node's state is Deceased it stays Deceased, and its
`infection_day`, `recovery_day` and `immunity_until` entries never change
again. -/
theorem C3_deceased_terminal (e : Engine) (cfg : Config) (net : Network)
    (v m : ℕ) (st : SimState) (r : Rng) (st' : SimState) (r1 : Rng)
    (hnodup : (dictKeys st.nodeStates).Nodup)
    (h3 : dictGet st.nodeStates v = some 3)
    (hrun : runDaysEngine e cfg net m (st, r) = some (st', r1)) :
    dictGet st'.nodeStates v = some 3 ∧
    dictGet st'.infectionDay v = dictGet st.infectionDay v ∧
    dictGet st'.recoveryDay v = dictGet st.recoveryDay v ∧
    dictGet st'.immunityUntil v = dictGet st.immunityUntil v := by
  induction m generalizing st r with
  | zero =>
    cases e <;>
      simp only [runDaysEngine, runDaysBackend, runDaysSrc,
        Option.some.injEq, Prod.mk.injEq] at hrun <;>
      · obtain ⟨rfl, rfl⟩ := hrun
        exact ⟨h3, rfl, rfl, rfl⟩
  | succ m ih =>
    have hstep : ∀ (out : SimState × Rng × Bool),
        simulateDay e cfg net st r = some out →
        runDaysEngine e cfg net m (out.1, out.2.1) = some (st', r1) →
        dictGet st'.nodeStates v = some 3 ∧
        dictGet st'.infectionDay v = dictGet st.infectionDay v ∧
        dictGet st'.recoveryDay v = dictGet st.recoveryDay v ∧
        dictGet st'.immunityUntil v = dictGet st.immunityUntil v := by
      intro out hso hrest
      obtain ⟨st1, r2, b⟩ := out
      obtain ⟨k3, k1, k2, k4, knodup⟩ := simulateDay_deceased_step e cfg net st r
        st1 r2 b v hnodup h3 hso
      obtain ⟨j3, j1, j2, j4⟩ := ih st1 r2 knodup k3 hrest
      exact ⟨j3, j1.trans k1, j2.trans k2, j4.trans k4⟩
    cases e with
    | backend =>
      simp only [runDaysEngine, runDaysBackend] at hrun
      cases hso : simulateDayBackend cfg net st r with
      | none => rw [hso] at hrun; cases hrun
      | some out =>
        rw [hso] at hrun
        obtain ⟨st1, r2, b⟩ := out
        exact hstep (st1, r2, b) hso hrun
    | src =>
      simp only [runDaysEngine, runDaysSrc] at hrun
      cases hso : simulateDaySrc cfg net st r with
      | none => rw [hso] at hrun; cases hrun
      | some out =>
        rw [hso] at hrun
        obtain ⟨st1, r2, b⟩ := out
        exact hstep (st1, r2, b) hso hrun

/-- A concrete state in which node 0 is deceased with recorded timers. -/
def stDeceasedW : SimState :=
  ⟨[(0, 3), (1, 0)], [(0, 5)], [(0, 7)], [], [], [], [], [], [], 0⟩

/-- The state after two src-engine days on `stDeceasedW`. -/
def stDeceasedW2 : SimState :=
  ⟨[(0, 3), (1, 0)], [(0, 5)], [(0, 7)], [],
   [1, 1], [0, 0], [0, 0], [1, 1], [1, 2], 2⟩

/-- Witness for C3: two concrete src-engine days leave the deceased node's
state and timers untouched. -/
theorem C3_deceased_terminal_witness :
    (dictKeys stDeceasedW.nodeStates).Nodup ∧
    dictGet stDeceasedW.nodeStates 0 = some 3 ∧
    runDaysEngine Engine.src cfgW netW 2 (stDeceasedW, ⟨[]⟩) =
      some (stDeceasedW2, ⟨[]⟩) ∧
    (dictGet stDeceasedW2.nodeStates 0 = some 3 ∧
     dictGet stDeceasedW2.infectionDay 0 = dictGet stDeceasedW.infectionDay 0 ∧
     dictGet stDeceasedW2.recoveryDay 0 = dictGet stDeceasedW.recoveryDay 0 ∧
     dictGet stDeceasedW2.immunityUntil 0 = dictGet stDeceasedW.immunityUntil 0) :=
  ⟨by decide, by decide, by decide,
   C3_deceased_terminal Engine.src cfgW netW 0 2 stDeceasedW ⟨[]⟩ stDeceasedW2 ⟨[]⟩
     (by decide) (by decide) (by decide)⟩

/-! ## Claim C4: counting lemmas and the initialization contract -/

/-- For a dict with duplicate-free keys, the per-state count is the number
of keys whose looked-up value is that state. -/
theorem countState_eq_countP (d : Dict) (hnodup : (dictKeys d).Nodup) (s : ℕ) :
    countState d s = (dictKeys d).countP (fun v => dictGet d v == some s) := by
  induction d with
  | nil => simp [countState, dictKeys]
  | cons p rest ih =>
    obtain ⟨x, b⟩ := p
    have hnd : x ∉ List.map Prod.fst rest ∧ (List.map Prod.fst rest).Nodup :=
      List.nodup_cons.mp (by simpa [dictKeys] using hnodup)
    rw [countState_cons]
    simp only [dictKeys, List.map_cons, List.countP_cons]
    have hx : dictGet ((x, b) :: rest) x = some b := by simp [dictGet]
    have hcong : (dictKeys rest).countP (fun v => dictGet ((x, b) :: rest) v == some s)
        = (dictKeys rest).countP (fun v => dictGet rest v == some s) := by
      apply List.countP_congr
      intro v hv
      have hxv : ¬(x = v) := fun hh => hnd.1 (hh ▸ hv)
      simp [dictGet, hxv]
    have ihr := ih hnd.2
    simp only [dictKeys] at hcong ihr
    rw [hcong, ihr, hx]
    by_cases hbs : b = s
    · simp [hbs, Nat.add_comm]
    · simp [hbs]

/-- Counting the members of a duplicate-free sublist inside a
duplicate-free list recovers the sublist's length. -/
theorem countP_mem_eq_length (nodes chosen : List ℕ) (hn : nodes.Nodup)
    (hc : chosen.Nodup) (hsub : ∀ v ∈ chosen, v ∈ nodes) :
    nodes.countP (fun v => decide (v ∈ chosen)) = chosen.length := by
  rw [List.countP_eq_length_filter]
  have hperm : (nodes.filter (fun v => decide (v ∈ chosen))).Perm chosen := by
    apply (List.perm_ext_iff_of_nodup (hn.filter _) hc).mpr
    intro a
    simp only [List.mem_filter, decide_eq_true_eq]
    constructor
    · rintro ⟨_, h⟩
      exact h
    · intro h
      exact ⟨hsub a h, h⟩
  exact hperm.length_eq

/-- C4: on a fresh simulation, `initialize_infection` sets every node
susceptible, then infects exactly `k = floor(initial_infected_percent *
node_count)` distinct sampled nodes — state 1, `infection_day = 0`,
`recovery_day` drawn from the inclusive configured range — and finally
appends the day-0 snapshot (`k` infected, `node_count - k` susceptible,
nobody recovered or deceased). -/
theorem C4_init_infection (cfg : Config) (net : Network) (r : Rng)
    (st' : SimState) (r' : Rng) (k : ℕ) (chosen : List ℕ)
    (hnodup : net.nodes.Nodup)
    (hpercent : 0 ≤ cfg.initialInfectedPercent)
    (hminmax : cfg.recoveryMin ≤ cfg.recoveryMax)
    (hk : k = (pyInt (cfg.initialInfectedPercent * net.nodes.length)).toNat)
    (hchosen : chosen = (r.sample net.nodes k).1)
    (hsome : initInfection cfg net freshSim r = some (st', r')) :
    pyInt (cfg.initialInfectedPercent * net.nodes.length) =
      ⌊cfg.initialInfectedPercent * net.nodes.length⌋ ∧
    (chosen.Nodup ∧ chosen.length = k ∧ ∀ v ∈ chosen, v ∈ net.nodes) ∧
    (∀ v ∈ chosen, dictGet st'.nodeStates v = some 1 ∧
       dictGet st'.infectionDay v = some 0 ∧
       ∃ p, cfg.recoveryMin ≤ p ∧ p ≤ cfg.recoveryMax ∧
         dictGet st'.recoveryDay v = some p) ∧
    (∀ v ∈ net.nodes, v ∉ chosen → dictGet st'.nodeStates v = some 0) ∧
    (st'.currentDay = 0 ∧ st'.statsDay = [0] ∧
     st'.statsInfected = [k] ∧
     st'.statsSusceptible = [net.nodes.length - k] ∧
     st'.statsRecovered = [0] ∧ st'.statsDeceased = [0]) := by
  have hfloor : pyInt (cfg.initialInfectedPercent * net.nodes.length) =
      ⌊cfg.initialInfectedPercent * net.nodes.length⌋ := by
    have hq : ¬(cfg.initialInfectedPercent * (net.nodes.length : ℚ) < 0) := by
      push_neg
      exact mul_nonneg hpercent (by positivity)
    simp [pyInt, hq]
  simp only [initInfection] at hsome
  split at hsome
  · cases hsome
  · rename_i hguard
    push_neg at hguard
    obtain ⟨hge0, hlen⟩ := hguard
    have hkn : k ≤ net.nodes.length := by
      rw [hk]
      omega
    subst hchosen
    subst hk
    have hcnodup : (r.sample net.nodes
        (pyInt (cfg.initialInfectedPercent * net.nodes.length)).toNat).1.Nodup :=
      sample_nodup _ r net.nodes hnodup
    have hclen := sample_length
      (pyInt (cfg.initialInfectedPercent * net.nodes.length)).toNat r net.nodes hkn
    have hcsub := sample_subset
      (pyInt (cfg.initialInfectedPercent * net.nodes.length)).toNat r net.nodes
    simp only [Option.some.injEq, Prod.mk.injEq] at hsome
    obtain ⟨hst, _⟩ := hsome
    subst hst
    -- abbreviations for the two folds
    have hkeys0 : dictKeys (net.nodes.foldl (fun d node => dictSet d node 0)
        freshSim.nodeStates) = net.nodes := by
      rw [setAll_keys net.nodes _ hnodup (by intro v _ hv; simp [freshSim, dictKeys] at hv)]
      rfl
    have hvals0 : ∀ p ∈ (net.nodes.foldl (fun d node => dictSet d node 0)
        freshSim.nodeStates), p.2 ≤ 3 :=
      setAll_values_le net.nodes _ (by intro p hp; simp [freshSim] at hp)
    have hchosenK : ∀ v ∈ (r.sample net.nodes
        (pyInt (cfg.initialInfectedPercent * net.nodes.length)).toNat).1,
        v ∈ dictKeys (net.nodes.foldl (fun d node => dictSet d node 0)
          freshSim.nodeStates) := by
      intro v hv
      rw [hkeys0]
      exact hcsub v hv
    obtain ⟨hkeys1, hvals1⟩ := infect_keys_values cfg freshSim.currentDay
      (r.sample net.nodes (pyInt (cfg.initialInfectedPercent * net.nodes.length)).toNat).1
      ((net.nodes.foldl (fun d node => dictSet d node 0) freshSim.nodeStates,
        freshSim.infectionDay, freshSim.recoveryDay),
       (r.sample net.nodes (pyInt (cfg.initialInfectedPercent * net.nodes.length)).toNat).2)
      hchosenK hvals0
    have hkeysF := hkeys1.trans hkeys0
    have hnodupF : (dictKeys (((r.sample net.nodes
        (pyInt (cfg.initialInfectedPercent * net.nodes.length)).toNat).1.foldl
        (infectInitial cfg freshSim.currentDay)
        ((net.nodes.foldl (fun d node => dictSet d node 0) freshSim.nodeStates,
          freshSim.infectionDay, freshSim.recoveryDay),
         (r.sample net.nodes
           (pyInt (cfg.initialInfectedPercent * net.nodes.length)).toNat).2)).1.1)).Nodup := by
      rw [hkeysF]
      exact hnodup
    -- per-node facts
    have hmemfacts : ∀ v ∈ (r.sample net.nodes
        (pyInt (cfg.initialInfectedPercent * net.nodes.length)).toNat).1,
        dictGet (((r.sample net.nodes
          (pyInt (cfg.initialInfectedPercent * net.nodes.length)).toNat).1.foldl
          (infectInitial cfg freshSim.currentDay)
          ((net.nodes.foldl (fun d node => dictSet d node 0) freshSim.nodeStates,
            freshSim.infectionDay, freshSim.recoveryDay),
           (r.sample net.nodes
             (pyInt (cfg.initialInfectedPercent * net.nodes.length)).toNat).2)).1.1) v
          = some 1 ∧
        dictGet (((r.sample net.nodes
          (pyInt (cfg.initialInfectedPercent * net.nodes.length)).toNat).1.foldl
          (infectInitial cfg freshSim.currentDay)
          ((net.nodes.foldl (fun d node => dictSet d node 0) freshSim.nodeStates,
            freshSim.infectionDay, freshSim.recoveryDay),
           (r.sample net.nodes
             (pyInt (cfg.initialInfectedPercent * net.nodes.length)).toNat).2)).1.2.1) v
          = some 0 ∧
        ∃ p, cfg.recoveryMin ≤ p ∧ p ≤ cfg.recoveryMax ∧
          dictGet (((r.sample net.nodes
            (pyInt (cfg.initialInfectedPercent * net.nodes.length)).toNat).1.foldl
            (infectInitial cfg freshSim.currentDay)
            ((net.nodes.foldl (fun d node => dictSet d node 0) freshSim.nodeStates,
              freshSim.infectionDay, freshSim.recoveryDay),
             (r.sample net.nodes
               (pyInt (cfg.initialInfectedPercent * net.nodes.length)).toNat).2)).1.2.2) v
            = some p := by
      intro v hv
      obtain ⟨h1, h2, p, hp1, hp2, h3⟩ := infect_get_mem cfg freshSim.currentDay hminmax
        (r.sample net.nodes (pyInt (cfg.initialInfectedPercent * net.nodes.length)).toNat).1
        v hv
        ((net.nodes.foldl (fun d node => dictSet d node 0) freshSim.nodeStates,
          freshSim.infectionDay, freshSim.recoveryDay),
         (r.sample net.nodes (pyInt (cfg.initialInfectedPercent * net.nodes.length)).toNat).2)
      refine ⟨h1, h2, p, hp1, hp2, ?_⟩
      simpa [freshSim] using h3
    have hnotmem : ∀ v ∈ net.nodes,
        v ∉ (r.sample net.nodes
          (pyInt (cfg.initialInfectedPercent * net.nodes.length)).toNat).1 →
        dictGet (((r.sample net.nodes
          (pyInt (cfg.initialInfectedPercent * net.nodes.length)).toNat).1.foldl
          (infectInitial cfg freshSim.currentDay)
          ((net.nodes.foldl (fun d node => dictSet d node 0) freshSim.nodeStates,
            freshSim.infectionDay, freshSim.recoveryDay),
           (r.sample net.nodes
             (pyInt (cfg.initialInfectedPercent * net.nodes.length)).toNat).2)).1.1) v
          = some 0 := by
      intro v hvnodes hvnot
      obtain ⟨h1, _, _⟩ := infect_get_not_mem cfg freshSim.currentDay
        (r.sample net.nodes (pyInt (cfg.initialInfectedPercent * net.nodes.length)).toNat).1
        v hvnot
        ((net.nodes.foldl (fun d node => dictSet d node 0) freshSim.nodeStates,
          freshSim.infectionDay, freshSim.recoveryDay),
         (r.sample net.nodes (pyInt (cfg.initialInfectedPercent * net.nodes.length)).toNat).2)
      rw [h1]
      exact setAll_get_mem net.nodes _ v hvnodes
    -- the infected count
    have hcount1 : countState (((r.sample net.nodes
        (pyInt (cfg.initialInfectedPercent * net.nodes.length)).toNat).1.foldl
        (infectInitial cfg freshSim.currentDay)
        ((net.nodes.foldl (fun d node => dictSet d node 0) freshSim.nodeStates,
          freshSim.infectionDay, freshSim.recoveryDay),
         (r.sample net.nodes
           (pyInt (cfg.initialInfectedPercent * net.nodes.length)).toNat).2)).1.1) 1
        = (pyInt (cfg.initialInfectedPercent * net.nodes.length)).toNat := by
      rw [countState_eq_countP _ hnodupF, hkeysF]
      rw [List.countP_congr (q := fun v => decide (v ∈ (r.sample net.nodes
        (pyInt (cfg.initialInfectedPercent * net.nodes.length)).toNat).1)) ?_]
      · rw [countP_mem_eq_length net.nodes _ hnodup hcnodup hcsub, hclen]
      · intro v hvnodes
        simp only [beq_iff_eq, decide_eq_true_eq]
        constructor
        · intro hbeq
          by_contra hvnot
          rw [hnotmem v hvnodes hvnot] at hbeq
          cases hbeq
        · intro hvmem
          exact (hmemfacts v hvmem).1
    have hcount2 : countState (((r.sample net.nodes
        (pyInt (cfg.initialInfectedPercent * net.nodes.length)).toNat).1.foldl
        (infectInitial cfg freshSim.currentDay)
        ((net.nodes.foldl (fun d node => dictSet d node 0) freshSim.nodeStates,
          freshSim.infectionDay, freshSim.recoveryDay),
         (r.sample net.nodes
           (pyInt (cfg.initialInfectedPercent * net.nodes.length)).toNat).2)).1.1) 2
        = 0 := by
      rw [countState_eq_countP _ hnodupF, hkeysF, List.countP_eq_length_filter]
      rw [List.filter_eq_nil_iff.mpr ?_]
      · rfl
      · intro v hvnodes
        simp only [beq_iff_eq]
        by_cases hvmem : v ∈ (r.sample net.nodes
          (pyInt (cfg.initialInfectedPercent * net.nodes.length)).toNat).1
        · rw [(hmemfacts v hvmem).1]
          simp
        · rw [hnotmem v hvnodes hvmem]
          simp
    have hcount3 : countState (((r.sample net.nodes
        (pyInt (cfg.initialInfectedPercent * net.nodes.length)).toNat).1.foldl
        (infectInitial cfg freshSim.currentDay)
        ((net.nodes.foldl (fun d node => dictSet d node 0) freshSim.nodeStates,
          freshSim.infectionDay, freshSim.recoveryDay),
         (r.sample net.nodes
           (pyInt (cfg.initialInfectedPercent * net.nodes.length)).toNat).2)).1.1) 3
        = 0 := by
      rw [countState_eq_countP _ hnodupF, hkeysF, List.countP_eq_length_filter]
      rw [List.filter_eq_nil_iff.mpr ?_]
      · rfl
      · intro v hvnodes
        simp only [beq_iff_eq]
        by_cases hvmem : v ∈ (r.sample net.nodes
          (pyInt (cfg.initialInfectedPercent * net.nodes.length)).toNat).1
        · rw [(hmemfacts v hvmem).1]
          simp
        · rw [hnotmem v hvnodes hvmem]
          simp
    have hlenF : (((r.sample net.nodes
        (pyInt (cfg.initialInfectedPercent * net.nodes.length)).toNat).1.foldl
        (infectInitial cfg freshSim.currentDay)
        ((net.nodes.foldl (fun d node => dictSet d node 0) freshSim.nodeStates,
          freshSim.infectionDay, freshSim.recoveryDay),
         (r.sample net.nodes
           (pyInt (cfg.initialInfectedPercent * net.nodes.length)).toNat).2)).1.1).length
        = net.nodes.length := by
      rw [length_eq_dictKeys_length, hkeysF]
    have hcount0 : countState (((r.sample net.nodes
        (pyInt (cfg.initialInfectedPercent * net.nodes.length)).toNat).1.foldl
        (infectInitial cfg freshSim.currentDay)
        ((net.nodes.foldl (fun d node => dictSet d node 0) freshSim.nodeStates,
          freshSim.infectionDay, freshSim.recoveryDay),
         (r.sample net.nodes
           (pyInt (cfg.initialInfectedPercent * net.nodes.length)).toNat).2)).1.1) 0
        = net.nodes.length
          - (pyInt (cfg.initialInfectedPercent * net.nodes.length)).toNat := by
      have hsum := countState_sum _ hvals1
      rw [hcount1, hcount2, hcount3, hlenF] at hsum
      omega
    refine ⟨hfloor, ⟨hcnodup, hclen, hcsub⟩, hmemfacts, hnotmem, rfl, rfl, ?_, ?_, ?_, ?_⟩
    · show [countState _ 1] = _
      rw [hcount1]
    · show [countState _ 0] = _
      rw [hcount0]
    · show [countState _ 2] = _
      rw [hcount2]
    · show [countState _ 3] = _
      rw [hcount3]

/-- Witness for C4 on the concrete three-node instance: `k = 1`, node 2 is
the sampled infected node, and the day-0 snapshot reads (2, 1, 0, 0). -/
theorem C4_init_infection_witness :
    pyInt (cfgW.initialInfectedPercent * netW.nodes.length) =
      ⌊cfgW.initialInfectedPercent * netW.nodes.length⌋ ∧
    (([2] : List ℕ).Nodup ∧ ([2] : List ℕ).length = 1 ∧
      ∀ v ∈ ([2] : List ℕ), v ∈ netW.nodes) ∧
    (∀ v ∈ ([2] : List ℕ), dictGet stInitW.nodeStates v = some 1 ∧
       dictGet stInitW.infectionDay v = some 0 ∧
       ∃ p, cfgW.recoveryMin ≤ p ∧ p ≤ cfgW.recoveryMax ∧
         dictGet stInitW.recoveryDay v = some p) ∧
    (∀ v ∈ netW.nodes, v ∉ ([2] : List ℕ) →
       dictGet stInitW.nodeStates v = some 0) ∧
    (stInitW.currentDay = 0 ∧ stInitW.statsDay = [0] ∧
     stInitW.statsInfected = [1] ∧
     stInitW.statsSusceptible = [netW.nodes.length - 1] ∧
     stInitW.statsRecovered = [0] ∧ stInitW.statsDeceased = [0]) := by
  have hinit : initInfection cfgW netW freshSim ⟨[5, 9]⟩ = some (stInitW, ⟨[]⟩) := by
    norm_num [initInfection, pyInt, Rng.sample, Rng.next, Rng.randint, infectInitial,
      dictSet, updateStats, countState, freshSim, netW, cfgW, stInitW, dictGet]
  exact C4_init_infection cfgW netW ⟨[5, 9]⟩ stInitW ⟨[]⟩ 1 [2]
    (by decide) (by norm_num [cfgW]) (by decide)
    (by norm_num [pyInt, cfgW, netW]) (by decide) hinit

/-! ## Claim C2: commit discipline of the daily step -/

/-- The backend commit of a susceptible node at the head of the list: the
node ends infected with `infection_day = day` and a recovery day from the
first draw, and no later (duplicate) entry changes that. -/
theorem commitBackend_head (cfg : Config) (day v : ℕ) (l : List ℕ)
    (states infDay recDay : Dict) (r : Rng)
    (h0 : dictGetD states v 0 = 0) :
    dictGet (commitBackend cfg day (v :: l) states infDay recDay r).1.1 v = some 1 ∧
    dictGet (commitBackend cfg day (v :: l) states infDay recDay r).1.2.1 v = some day ∧
    dictGet (commitBackend cfg day (v :: l) states infDay recDay r).1.2.2 v =
      some (day + (r.randint cfg.recoveryMin cfg.recoveryMax).1) := by
  simp only [commitBackend, List.foldl_cons]
  have hstep : commitNodeBackend cfg day ((states, infDay, recDay), r) v =
      ((dictSet states v 1, dictSet infDay v day,
        dictSet recDay v (day + (r.randint cfg.recoveryMin cfg.recoveryMax).1)),
       (r.randint cfg.recoveryMin cfg.recoveryMax).2) := by
    simp only [commitNodeBackend, if_pos h0]
  rw [hstep]
  have hne : dictGetD (dictSet states v 1) v 0 ≠ 0 := by
    simp [dictGetD, dictGet_dictSet_self]
  obtain ⟨h1, h2, h3⟩ := commitBackendFold_preserve cfg day l
    ((dictSet states v 1, dictSet infDay v day,
      dictSet recDay v (day + (r.randint cfg.recoveryMin cfg.recoveryMax).1)),
     (r.randint cfg.recoveryMin cfg.recoveryMax).2) v hne
  rw [h1, h2, h3]
  exact ⟨dictGet_dictSet_self _ _ _, dictGet_dictSet_self _ _ _,
    dictGet_dictSet_self _ _ _⟩

/-- C2 (amended): in both engines the transmission phase operates on the
post-resolution state — every recorded candidate is susceptible there (the
phase itself never mutates states, so this also holds at commit start).
In the backend engine the commit re-checks susceptibility: a node that is
not susceptible when the commit reaches it (already Infected, Deceased, or
already promoted by an earlier duplicate) keeps its state, `infection_day`
and `recovery_day`; a susceptible recorded node is promoted exactly once,
its recovery day coming from the first draw.  In the src engine the commit
is unguarded: every recorded node still ends the day Infected (one state
change at most, since only susceptible nodes are recorded), but a duplicate
entry re-processes the node (see the counterexample). -/
theorem C2_commit_discipline :
    (∀ (cfg : Config) (net : Network) (states : Dict) (r : Rng) (v : ℕ),
      v ∈ (transmitBackend cfg net states r).1 → dictGetD states v 0 = 0) ∧
    (∀ (cfg : Config) (net : Network) (states : Dict) (r : Rng)
       (out : List ℕ × Rng) (v : ℕ),
      transmitSrc cfg net states r = some out → v ∈ out.1 →
      dictGet states v = some 0) ∧
    (∀ (cfg : Config) (day : ℕ) (l : List ℕ) (states infDay recDay : Dict)
       (r : Rng) (v : ℕ), dictGetD states v 0 ≠ 0 →
      dictGet (commitBackend cfg day l states infDay recDay r).1.1 v =
        dictGet states v ∧
      dictGet (commitBackend cfg day l states infDay recDay r).1.2.1 v =
        dictGet infDay v ∧
      dictGet (commitBackend cfg day l states infDay recDay r).1.2.2 v =
        dictGet recDay v) ∧
    (∀ (cfg : Config) (day v : ℕ) (l : List ℕ) (states infDay recDay : Dict)
       (r : Rng), dictGetD states v 0 = 0 →
      dictGet (commitBackend cfg day (v :: l) states infDay recDay r).1.1 v =
        some 1 ∧
      dictGet (commitBackend cfg day (v :: l) states infDay recDay r).1.2.1 v =
        some day ∧
      dictGet (commitBackend cfg day (v :: l) states infDay recDay r).1.2.2 v =
        some (day + (r.randint cfg.recoveryMin cfg.recoveryMax).1)) ∧
    (∀ (cfg : Config) (day : ℕ) (l : List ℕ) (states infDay recDay : Dict)
       (r : Rng) (v : ℕ), v ∈ l →
      dictGet (commitSrc cfg day l states infDay recDay r).1.1 v = some 1) := by
  refine ⟨?_, ?_, ?_, ?_, ?_⟩
  · intro cfg net states r v hv
    exact (transmitBackend_mem cfg net states r v hv).2
  · intro cfg net states r out v hout hv
    exact transmitSrc_mem cfg net states r out hout v hv
  · intro cfg day l states infDay recDay r v hv
    exact commitBackendFold_preserve cfg day l ((states, infDay, recDay), r) v hv
  · intro cfg day v l states infDay recDay r h0
    exact commitBackend_head cfg day v l states infDay recDay r h0
  · intro cfg day l states infDay recDay r v hv
    exact commitSrcFold_mem cfg day l ((states, infDay, recDay), r) v hv

/-- The network of the C2 counterexample: nodes 0 and 1 both adjacent to
node 2, with demographic attributes making the src per-pair probability
exactly the base probability. -/
def netC2 : Network :=
  { nodes := [0, 1, 2]
    adj := fun u =>
      if u = 0 then [2] else if u = 1 then [2] else if u = 2 then [0, 1] else []
    weight := fun _ _ => none
    age := fun _ => 50
    health := fun _ => 0
    mobility := fun _ => 1 }

/-- The configuration of the C2 counterexample (recovery range 5..9). -/
def cfgC2 : Config :=
  ⟨3/10, 5, 9, 1/100, 1/2, 60⟩

/-- The day-start state of the C2 counterexample: nodes 0 and 1 infected
(recovering on day 10), node 2 susceptible. -/
def stC2 : SimState :=
  ⟨[(0, 1), (1, 1), (2, 0)], [(0, 0), (1, 0)], [(0, 10), (1, 10)], [],
   [], [], [], [], [], 0⟩

/-- C2 counterexample (src engine): with both infected neighbours' trials
succeeding, node 2 is recorded twice in `new_infections`; the first commit
gives it `recovery_day = 6`, but the unguarded duplicate commit re-draws it
to 8 — the already re-infected node *is* affected by the commit, refuting
the claim as stated for the src engine. -/
theorem C2_counterexample :
    transmitSrc cfgC2 netC2 stC2.nodeStates ⟨[0, 100000, 0, 2]⟩ =
      some ([2, 2], ⟨[0, 2]⟩) ∧
    dictGet (commitSrc cfgC2 1 [2] stC2.nodeStates stC2.infectionDay
      stC2.recoveryDay ⟨[0, 2]⟩).1.2.2 2 = some 6 ∧
    dictGet (commitSrc cfgC2 1 [2, 2] stC2.nodeStates stC2.infectionDay
      stC2.recoveryDay ⟨[0, 2]⟩).1.2.2 2 = some 8 ∧
    simulateDaySrc cfgC2 netC2 stC2 ⟨[0, 100000, 0, 2]⟩ =
      some (⟨[(0, 1), (1, 1), (2, 1)], [(0, 0), (1, 0), (2, 1)],
        [(0, 10), (1, 10), (2, 8)], [], [0], [3], [0], [0], [1], 1⟩,
        ⟨[]⟩, true) := by
  refine ⟨?_, by decide, by decide, ?_⟩
  · norm_num [transmitSrc, transmitItemSrc, transmitNeighborsSrc, transmitTrialSrc,
      srcPairProb, adjustedProbSrc, Rng.nextFloat, Rng.next, dictGet,
      netC2, cfgC2, stC2]
  · norm_num [simulateDaySrc, resolvePhase, resolveNode, transmitSrc, transmitItemSrc,
      transmitNeighborsSrc, transmitTrialSrc, srcPairProb, adjustedProbSrc,
      commitSrc, commitNodeSrc, Rng.nextFloat, Rng.next, Rng.randint,
      dictGet, dictGetD, dictSet, updateStats, countState, netC2, cfgC2, stC2]

/-- Witness for C2 on concrete inputs: a backend candidate is susceptible;
src candidates are susceptible; a non-susceptible node survives the backend
commit; a susceptible head is promoted with the first draw; an src-recorded
node ends infected. -/
theorem C2_commit_discipline_witness :
    (1 ∈ (transmitBackend cfgW netW [(0, 1), (1, 0)] ⟨[0]⟩).1 ∧
      dictGetD [(0, 1), (1, 0)] 1 0 = 0) ∧
    (transmitSrc cfgC2 netC2 stC2.nodeStates ⟨[0, 100000, 0, 2]⟩ =
        some ([2, 2], ⟨[0, 2]⟩) ∧
      dictGet stC2.nodeStates 2 = some 0) ∧
    (dictGetD [(0, 3)] 0 0 ≠ 0 ∧
      dictGet (commitBackend cfgW 1 [0] [(0, 3)] [] [] ⟨[7]⟩).1.1 0 =
        dictGet [(0, 3)] 0) ∧
    (dictGetD [(2, 0)] 2 0 = 0 ∧
      dictGet (commitBackend cfgW 1 (2 :: [2]) [(2, 0)] [] [] ⟨[0, 2]⟩).1.2.2 2 =
        some (1 + ((⟨[0, 2]⟩ : Rng).randint cfgW.recoveryMin cfgW.recoveryMax).1)) ∧
    (2 ∈ [2, 2] ∧
      dictGet (commitSrc cfgC2 1 [2, 2] stC2.nodeStates stC2.infectionDay
        stC2.recoveryDay ⟨[0, 2]⟩).1.1 2 = some 1) := by
  have htr : 1 ∈ (transmitBackend cfgW netW [(0, 1), (1, 0)] ⟨[0]⟩).1 := by
    norm_num [transmitBackend, transmitItemBackend, transmitNeighborsBackend,
      transmitTrialBackend, backendPairProb, adjustedProbBackend, socialDistance,
      Rng.nextFloat, Rng.next, dictGetD, dictGet, netW, cfgW]
  have hsrc : transmitSrc cfgC2 netC2 stC2.nodeStates ⟨[0, 100000, 0, 2]⟩ =
      some ([2, 2], ⟨[0, 2]⟩) := by
    norm_num [transmitSrc, transmitItemSrc, transmitNeighborsSrc, transmitTrialSrc,
      srcPairProb, adjustedProbSrc, Rng.nextFloat, Rng.next, dictGet,
      netC2, cfgC2, stC2]
  refine ⟨⟨htr, ?_⟩, ⟨hsrc, ?_⟩, ⟨by decide, ?_⟩, ⟨by decide, ?_⟩, ⟨by decide, ?_⟩⟩
  · exact C2_commit_discipline.1 cfgW netW [(0, 1), (1, 0)] ⟨[0]⟩ 1 htr
  · exact C2_commit_discipline.2.1 cfgC2 netC2 stC2.nodeStates ⟨[0, 100000, 0, 2]⟩
      ([2, 2], ⟨[0, 2]⟩) 2 hsrc (by decide)
  · exact (C2_commit_discipline.2.2.1 cfgW 1 [0] [(0, 3)] [] [] ⟨[7]⟩ 0
      (by decide)).1
  · exact (C2_commit_discipline.2.2.2.1 cfgW 1 2 [2] [(2, 0)] [] [] ⟨[0, 2]⟩
      (by decide)).2.2
  · exact C2_commit_discipline.2.2.2.2 cfgC2 1 [2, 2] stC2.nodeStates
      stC2.infectionDay stC2.recoveryDay ⟨[0, 2]⟩ 2 (by decide)

/-! ## Claim C6: there is no out-of-sequence guard -/

/-- The state a second `initialize_infection` (tape `[1, 4]`) leaves on the
already-initialized `stInitW`: node 2's infection is wiped, node 1 becomes
the newly sampled infected node, stale timers remain, and a second
snapshot is appended. -/
def stDoubleInitW : SimState :=
  ⟨[(0, 0), (1, 1), (2, 0)], [(2, 0), (1, 0)], [(2, 3), (1, 2)], [],
   [2, 2], [1, 1], [0, 0], [0, 0], [0, 0], 0⟩

/-- C6 counterexample: neither mis-sequencing fails.  Advancing a day on a
never-initialized simulation succeeds and mutates state (it appends an
all-zero snapshot), and calling `initialize_infection` a second time
succeeds and mutates state (it silently re-initializes, wiping the previous
infection and appending another snapshot) — there is no `InvalidState`
anywhere in the engine. -/
theorem C6_counterexample :
    simulateDayBackend cfgW netW freshSim ⟨[]⟩ =
      some (⟨[], [], [], [], [0], [0], [0], [0], [1], 1⟩, ⟨[]⟩, false) ∧
    (⟨[], [], [], [], [0], [0], [0], [0], [1], 1⟩ : SimState) ≠ freshSim ∧
    initInfection cfgW netW stInitW ⟨[1, 4]⟩ = some (stDoubleInitW, ⟨[]⟩) ∧
    stDoubleInitW ≠ stInitW ∧
    dictGet stInitW.nodeStates 2 = some 1 ∧
    dictGet stDoubleInitW.nodeStates 2 = some 0 := by
  refine ⟨rfl, by decide, ?_, by decide, by decide, by decide⟩
  norm_num [initInfection, pyInt, Rng.sample, Rng.next, Rng.randint, infectInitial,
    dictSet, updateStats, countState, netW, cfgW, stInitW, stDoubleInitW, dictGet]

/-- C6 (amended): the engine performs no call-sequencing checks.  A daily
step on a fresh, never-initialized simulation succeeds in both engines: it
runs all phases over the empty state dict, appends an all-zero snapshot for
day 1, and returns `False`; nothing fails.  A second `initialize_infection`
likewise succeeds, silently re-initializing the state and appending another
day-0 snapshot (concrete instance). -/
theorem C6_no_sequencing_guard :
    (∀ (cfg : Config) (net : Network) (r : Rng),
      simulateDayBackend cfg net freshSim r =
        some (⟨[], [], [], [], [0], [0], [0], [0], [1], 1⟩, r, false)) ∧
    (∀ (cfg : Config) (net : Network) (r : Rng),
      simulateDaySrc cfg net freshSim r =
        some (⟨[], [], [], [], [0], [0], [0], [0], [1], 1⟩, r, false)) ∧
    initInfection cfgW netW stInitW ⟨[1, 4]⟩ = some (stDoubleInitW, ⟨[]⟩) ∧
    stDoubleInitW.statsDay.length = stInitW.statsDay.length + 1 := by
  refine ⟨fun cfg net r => rfl, fun cfg net r => rfl, ?_, by decide⟩
  norm_num [initInfection, pyInt, Rng.sample, Rng.next, Rng.randint, infectInitial,
    dictSet, updateStats, countState, netW, cfgW, stInitW, stDoubleInitW, dictGet]

/-! ## Claims C7 and C8: the builders' `build()` -/

/-- A trivial topology oracle for concrete builder runs. -/
def topoW : String → ℕ → ℕ → List ℕ × (ℕ → List ℕ) :=
  fun _ _ _ => ([0, 1], fun _ => [])

/-- A trivial attribute oracle for concrete builder runs. -/
def attrsW : ℕ → ℚ × ℚ × ℚ :=
  fun _ => (0, 0, 0)

/-- C7 counterexample: `build()` accepts `infection_probability = 2`
(outside `[0, 1]`) without any error — it returns a fully built simulation
carrying the out-of-range value unchanged, refuting the claim that build
fails with `InvalidConfiguration` whenever a range constraint is violated. -/
theorem C7_counterexample :
    srcBuild
      { network := some netW, infectionProbability := 2, recoveryDays := (7, 14),
        initialInfectedPercent := 1/100, mortalityRate := 1/50, immunityPeriod := 60,
        networkModel := "barabasi_albert", networkSize := 1000, networkParam := 5 }
      topoW attrsW = .ok ⟨netW, ⟨2, 7, 14, 1/100, 1/50, 60⟩, freshSim⟩ ∧
    ¬((2 : ℚ) ≤ 1) := by
  exact ⟨rfl, by norm_num⟩

/-- C7 (amended): neither builder validates numeric ranges — `build()`
accepts any parameter values and stores them unchanged (never clamped).
The only configuration error build can raise for its parameters is the
`ValueError` for an unrecognized network model, raised by network creation
and hence only when no pre-built network was supplied; and the backend
builder's `build()` then fails with `TypeError` anyway (see C8). -/
theorem C7_build_no_validation :
    (∀ (b : SrcBuilder) (net : Network)
       (topo : String → ℕ → ℕ → List ℕ × (ℕ → List ℕ))
       (attrs : ℕ → ℚ × ℚ × ℚ),
      srcBuild { b with network := some net } topo attrs =
        .ok ⟨net, ⟨b.infectionProbability, b.recoveryDays.1, b.recoveryDays.2,
          b.initialInfectedPercent, b.mortalityRate, b.immunityPeriod⟩, freshSim⟩) ∧
    (∀ (b : SrcBuilder)
       (topo : String → ℕ → ℕ → List ℕ × (ℕ → List ℕ))
       (attrs : ℕ → ℚ × ℚ × ℚ),
      srcBuild { b with network := none, networkModel := "no_such_model" }
        topo attrs = .error .valueError) ∧
    (∀ (b : BackendBuilder),
      backendBuild { b with network := none, networkModel := "no_such_model" } =
        .error .valueError) :=
  ⟨fun _ _ _ _ => rfl, fun _ _ _ => rfl, fun _ => rfl⟩

/-- C8: the backend builder's `build()` can never return a simulation: on
every path that survives network creation it calls
`EpidemicSimulation(..., interaction_distance=...)`, an argument the
backend constructor does not accept, so it raises `TypeError` — in
particular on the all-defaults (valid) configuration.  The src builder
does return a fully-constructed simulation with empty state, using the
caller-provided network when one is supplied and otherwise the network
generated with the configured model, size and parameter. -/
theorem C8_backend_build_type_error :
    (∀ (b : BackendBuilder) (net : Network),
      backendBuild { b with network := some net } = .error .typeError) ∧
    (∀ (b : BackendBuilder),
      backendBuild { b with network := none, networkModel := "barabasi_albert" } =
        .error .typeError) ∧
    backendBuild {} = .error .typeError ∧
    (∀ (b : SrcBuilder) (net : Network)
       (topo : String → ℕ → ℕ → List ℕ × (ℕ → List ℕ))
       (attrs : ℕ → ℚ × ℚ × ℚ),
      srcBuild { b with network := some net } topo attrs =
        .ok ⟨net, ⟨b.infectionProbability, b.recoveryDays.1, b.recoveryDays.2,
          b.initialInfectedPercent, b.mortalityRate, b.immunityPeriod⟩, freshSim⟩) ∧
    (∀ (b : SrcBuilder)
       (topo : String → ℕ → ℕ → List ℕ × (ℕ → List ℕ))
       (attrs : ℕ → ℚ × ℚ × ℚ),
      srcBuild { b with network := none, networkModel := "barabasi_albert" }
        topo attrs =
        .ok ⟨{ nodes := (topo "barabasi_albert" b.networkSize b.networkParam).1
               adj := (topo "barabasi_albert" b.networkSize b.networkParam).2
               weight := fun _ _ => none
               age := fun v => (attrs v).1
               health := fun v => (attrs v).2.1
               mobility := fun v => (attrs v).2.2 },
          ⟨b.infectionProbability, b.recoveryDays.1, b.recoveryDays.2,
           b.initialInfectedPercent, b.mortalityRate, b.immunityPeriod⟩,
          freshSim⟩) :=
  ⟨fun _ _ => rfl, fun _ => rfl, rfl, fun _ _ _ _ => rfl,
   fun _ _ _ => rfl⟩

/-! ## Claim C9: determinism and the shared global random stream -/

/-- A one-infected, one-susceptible state for the stream-sharing
experiments. -/
def stC9 : SimState :=
  ⟨[(0, 1), (1, 0)], [(0, 0)], [(0, 10)], [], [], [], [], [], [], 0⟩

/-- C9 counterexample: the engine's randomness is the process-global
`random` stream, not a per-instance source.  The same daily step on the
same simulation state produces different statistics when one value of the
shared global stream has been consumed elsewhere first (as happens when
the API layer's `SimulationManager` advances another simulation between
the two runs).  This refutes the claim that the engine draws all
randomness from a source that can be fixed per simulation instance with no
global shared random state: fixing a seed is only possible process-wide. -/
theorem C9_counterexample :
    simulateDayBackend cfgW netW stC9 ⟨[0, 900000]⟩ =
      some (⟨[(0, 1), (1, 1)], [(0, 0), (1, 1)], [(0, 10), (1, 3)], [],
        [0], [2], [0], [0], [1], 1⟩, ⟨[]⟩, true) ∧
    simulateDayBackend cfgW netW stC9 ⟨[900000]⟩ =
      some (⟨[(0, 1), (1, 0)], [(0, 0)], [(0, 10)], [],
        [1], [1], [0], [0], [1], 1⟩, ⟨[]⟩, false) ∧
    ([0, 2] : List ℕ) ≠ [1, 1] := by
  refine ⟨?_, ?_, by decide⟩ <;>
    norm_num [simulateDayBackend, resolvePhase, resolveNode, transmitBackend,
      transmitItemBackend, transmitNeighborsBackend, transmitTrialBackend,
      backendPairProb, adjustedProbBackend, socialDistance, commitBackend,
      commitNodeBackend, Rng.nextFloat, Rng.next, Rng.randint,
      dictGet, dictGetD, dictSet, updateStats, countState, netW, cfgW, stC9]

/-- C9 (amended): the full pipeline `build` → `run_simulation(N)` (the src
engine; `run_simulation` performs `initialize_infection` itself) is a pure
function of the configuration, the topology/attribute oracles and the
global random tape, so two executions from the same seed yield
byte-identical StatisticsSeries — provided nothing else consumes the
process-global stream in between: the stream is shared by every simulation
in the process, and a single external draw changes a day's outcome (second
and third conjuncts, same experiment as the counterexample). -/
theorem C9_determinism :
    (∀ (b : SrcBuilder) (topo : String → ℕ → ℕ → List ℕ × (ℕ → List ℕ))
       (attrs : ℕ → ℚ × ℚ × ℚ) (days : ℕ) (t₁ t₂ : List ℕ), t₁ = t₂ →
      pipelineSrc b topo attrs days t₁ = pipelineSrc b topo attrs days t₂) ∧
    (simulateDayBackend cfgW netW stC9 ⟨[0, 900000]⟩ =
        some (⟨[(0, 1), (1, 1)], [(0, 0), (1, 1)], [(0, 10), (1, 3)], [],
          [0], [2], [0], [0], [1], 1⟩, ⟨[]⟩, true) ∧
      simulateDayBackend cfgW netW stC9 ⟨[900000]⟩ =
        some (⟨[(0, 1), (1, 0)], [(0, 0)], [(0, 10)], [],
          [1], [1], [0], [0], [1], 1⟩, ⟨[]⟩, false)) := by
  refine ⟨fun b topo attrs days t₁ t₂ h => by rw [h], ?_, ?_⟩ <;>
    norm_num [simulateDayBackend, resolvePhase, resolveNode, transmitBackend,
      transmitItemBackend, transmitNeighborsBackend, transmitTrialBackend,
      backendPairProb, adjustedProbBackend, socialDistance, commitBackend,
      commitNodeBackend, Rng.nextFloat, Rng.next, Rng.randint,
      dictGet, dictGetD, dictSet, updateStats, countState, netW, cfgW, stC9]

/-- Witness for C9: the determinism conjunct applied at a concrete tape. -/
theorem C9_determinism_witness :
    ([3, 4] : List ℕ) = [3, 4] ∧
    pipelineSrc {} topoW attrsW 1 [3, 4] = pipelineSrc {} topoW attrsW 1 [3, 4] :=
  ⟨rfl, C9_determinism.1 {} topoW attrsW 1 [3, 4] [3, 4] rfl⟩

end EpiSim
